import Mathlib

/-!
Verification development for the PokerStars hand-history parsing module
(`poker/room/pokerstars.py`).

The module is embedded shallowly:

* the character stream is a finite list of newline-stripped lines; the
  Python sentinel `curline == ''` (initial value and end of stream) is
  represented by `Option.none`, so that a blank line (`"\n"` in Python,
  `some ""` here) stays distinct from end of stream;
* every regular expression of the source is transliterated into a small
  regex AST (`RE`) matched by a greedy backtracking engine with the same
  semantics as Python `re.match` (anchored at the start, prefix match,
  leftmost alternative first, greedy quantifiers, named groups by number);
* exceptions are an explicit error type `PErr`; Python's distinct runtime
  failures (`ParseException`, `AttributeError` from `.group` on `None`,
  `TypeError` from `Fraction(None)`, `ValueError`, `IndexError`) are kept
  apart;
* loops of the source become fueled tail recursions; the fuel supplied at
  every call site (`mlen s + 1`) is proved sufficient, so the embedding is
  total while computing exactly what the Python loops compute.

Collaborator classes that are part of the repository but whose sources are
not available (`HandHistory`, `Seat`, `PlayerAction`, `HoleCards`, `Card`,
the `Action`/`Currency`/`Game`/`Limit` enumerations) are modelled from the
specification; each such definition carries a doc comment saying so.
-/

namespace Poker

/-- Errors of the embedding.  `parseException line` is the source's
`ParseException` carrying the raw offending line (the empty string when the
current line is the end-of-stream sentinel).  `attributeError` is Python's
`AttributeError` raised by calling `.group` on `None`; `typeError` is the
`TypeError` raised by `Fraction(None)`; `valueError s` covers
`ValueError`s from `Fraction`, `Card` and the enumeration constructors;
`nameResolution n` is the hard name-lookup failure of `HandHistory.seat`
(modelled from the spec); `indexError` is Python's `IndexError` on a list
subscript; `fuelOut` marks fuel exhaustion of the embedding (proved
unreachable at the fuel supplied by the call sites). -/
inductive PErr where
  | parseException (line : String)
  | attributeError
  | typeError
  | valueError (what : String)
  | nameResolution (who : String)
  | indexError
  | notImplemented
  | assertionError
  | fuelOut
deriving DecidableEq, Repr

deriving instance DecidableEq for Except

/-- Capture list of one regex match: pairs of group number and captured
text, most recently closed group first. -/
def Caps : Type := List (Nat × String)

instance : DecidableEq Caps := by
  unfold Caps
  infer_instance

/-- Regex AST covering exactly the constructs used by the source module:
string literals, greedy repetitions of a character class (`p{lo,hi}`, with
`hi = none` unbounded: this covers `.*`, `\d*`, `[0-9]+`, `.{8}`, `\d`),
concatenation, alternation (leftmost first), greedy option (`?`),
numbered capture groups, and the `$` anchor. -/
inductive RE where
  | lit (s : String)
  | cls (p : Char → Bool) (lo : Nat) (hi : Option Nat)
  | cat (a b : RE)
  | alt (a b : RE)
  | opt (a : RE)
  | grp (i : Nat) (a : RE)
  | eos

/-- Strip `pre` from the front of `s`; `none` if `s` does not begin with
`pre`. -/
def stripPre : List Char → List Char → Option (List Char)
  | [], s => some s
  | _ :: _, [] => none
  | c :: cs, d :: ds => if c = d then stripPre cs ds else none

/-- Length of the maximal prefix of `s` whose characters satisfy `p`. -/
def takeCount (p : Char → Bool) : List Char → Nat
  | [] => 0
  | c :: cs => if p c then takeCount p cs + 1 else 0

/-- Greedy backtracking over the repetition count of a character class:
try consuming `j` characters, then `j-1`, …, down to `lo`. -/
def clsGo (lo : Nat) (k : List Char → Option Caps) (s : List Char) :
    Nat → Option Caps
  | 0 => if lo = 0 then k s else none
  | j + 1 =>
    if j + 1 < lo then none
    else
      match k (s.drop (j + 1)) with
      | some r => some r
      | none => clsGo lo k s j

/-- The matching engine, in continuation-passing style.  Alternatives are
tried left first, quantifiers are greedy (longest consumption first),
exactly as Python's `re` backtracking engine behaves on the patterns of
the source.  A group records the text it consumed on the successful
path. -/
def mat : RE → List Char → Caps → (List Char → Caps → Option Caps) → Option Caps
  | .lit str, s, caps, k =>
    match stripPre str.data s with
    | none => none
    | some s' => k s' caps
  | .cls p lo hi, s, caps, k =>
    let m := takeCount p s
    let m := match hi with | none => m | some h => min m h
    clsGo lo (fun s' => k s' caps) s m
  | .cat a b, s, caps, k => mat a s caps (fun s' c' => mat b s' c' k)
  | .alt a b, s, caps, k =>
    match mat a s caps k with
    | some r => some r
    | none => mat b s caps k
  | .opt a, s, caps, k =>
    match mat a s caps k with
    | some r => some r
    | none => k s caps
  | .grp i a, s, caps, k =>
    mat a s caps
      (fun s' c' => k s' ((i, String.mk (s.take (s.length - s'.length))) :: c'))
  | .eos, s, caps, k => if s.isEmpty then k s caps else none

/-- Python `re.match`: anchored at the start of the line, a match of any prefix
succeeds.  Returns the capture list, or `none` when the pattern does not
match. -/
def matchTop (r : RE) (line : String) : Option Caps :=
  mat r line.data [] (fun _ caps => some caps)

/-- Python `match.group(i)`: the text of group `i`, `none` when the group did not
participate in the match (Python's `None`). -/
def grpGet (caps : Caps) (i : Nat) : Option String :=
  (caps.find? (fun x => x.1 = i)).map (fun x => x.2)

/-- Sequence a list of regexes (helper for transliterating patterns). -/
def reSeq (l : List RE) : RE := l.foldr RE.cat (RE.lit "")

/-- Python's `.` (our lines never contain a newline, so it accepts every
character). -/
def dotC : Char → Bool := fun _ => true

/-- Python's `\d` on the ASCII input the module handles. -/
def digitC : Char → Bool := Char.isDigit

/-- Repetition `p*`. -/
def reStar (p : Char → Bool) : RE := RE.cls p 0 none

/-- Repetition `p+`. -/
def rePlus (p : Char → Bool) : RE := RE.cls p 1 none

/-- Repetition `p{n}`. -/
def reRep (p : Char → Bool) (n : Nat) : RE := RE.cls p n (some n)

/-- The apostrophe character, written by code point. -/
def apos : Char := Char.ofNat 39

/-- One-character string holding an apostrophe. -/
def apostr : String := String.singleton apos

/-- Whether `pre` is a prefix of `s` (structural, so that it evaluates inside the
kernel). -/
def startsWithL : List Char → List Char → Bool
  | [], _ => true
  | _ :: _, [] => false
  | c :: cs, d :: ds => c = d && startsWithL cs ds

/-- Whether `pat` occurs inside `s` (structural). -/
def containsL (pat : List Char) : List Char → Bool
  | [] => startsWithL pat []
  | c :: rest => startsWithL pat (c :: rest) || containsL pat rest

/-- Does `pat` occur inside `s` (Python's `pat in s`)? -/
def containsSub (s pat : String) : Bool := containsL pat.data s.data

/-- Python's `s.startswith(pre)`. -/
def startsWithS (s pre : String) : Bool := startsWithL pre.data s.data

/-- Python `int(text)` on the digit strings captured by `\d` groups
(structural). -/
def digitsValAux (acc : Nat) : List Char → Nat
  | [] => acc
  | c :: cs => digitsValAux (acc * 10 + (c.toNat - 48)) cs

/-- Python `int` of a captured digit group. -/
def strToNat (s : String) : Nat := digitsValAux 0 s.data

/-- Split a character list at every occurrence of `c` (the shape of
Python `str.split` used to read decimal numbers). -/
def splitOnChar (c : Char) : List Char → List (List Char)
  | [] => [[]]
  | d :: ds =>
    let r := splitOnChar c ds
    if d = c then [] :: r
    else
      match r with
      | [] => [[d]]
      | x :: xs => (d :: x) :: xs

/-- Pattern `_tournament_header_re`
(`^PokerStars Hand #(ident\d*): (game_type Tournament) #(tournament_ident\d*),
 $(buyin \d*.\d{2})+$(rake \d*.\d{2}) (currency USD|EUR) (game .*)
 (limit No Limit) - Level (tournament_level .*) ((sb .*)/(bb .*)) - .* [(date .*)]$`).
Group numbers follow the source order: 1 ident, 2 game_type,
3 tournament_ident, 4 buyin, 5 rake, 6 currency, 7 game, 8 limit,
9 tournament_level, 10 sb, 11 bb, 12 date. -/
def tournRe : RE := reSeq
  [ .lit "PokerStars Hand #", .grp 1 (reStar digitC), .lit ": ",
    .grp 2 (.lit "Tournament"), .lit " #", .grp 3 (reStar digitC),
    .lit ", $", .grp 4 (reSeq [reStar digitC, .lit ".", reRep digitC 2]),
    .lit "+$", .grp 5 (reSeq [reStar digitC, .lit ".", reRep digitC 2]),
    .lit " ", .grp 6 (.alt (.lit "USD") (.lit "EUR")),
    .lit " ", .grp 7 (reStar dotC),
    .lit " ", .grp 8 (.lit "No Limit"),
    .lit " - Level ", .grp 9 (reStar dotC),
    .lit " (", .grp 10 (reStar dotC), .lit "/", .grp 11 (reStar dotC),
    .lit ") - ", reStar dotC, .lit " [", .grp 12 (reStar dotC), .lit "]",
    .eos ]

/-- The literal `Hold'em No Limit` of `_cash_header_re`. -/
def holdemNL : String := "Hold" ++ apostr ++ "em No Limit"

/-- Pattern `_cash_header_re`
(`^PokerStars Hand #(ident\d*):  (game_type Hold'em No Limit)
 (($(sb .*)/$(bb .*) (currency .*)) - (date .*)`).
Groups: 1 ident, 2 game_type, 3 sb, 4 bb, 5 currency, 6 date. -/
def cashRe : RE := reSeq
  [ .lit "PokerStars Hand #", .grp 1 (reStar digitC), .lit ":  ",
    .grp 2 (.lit holdemNL), .lit " ($", .grp 3 (reStar dotC),
    .lit "/$", .grp 4 (reStar dotC), .lit " ", .grp 5 (reStar dotC),
    .lit ") - ", .grp 6 (reStar dotC) ]

/-- Pattern `_table_re`
(`^Table '(name .*)' (seats \d)-max Seat #(button \d) is the button$`). -/
def tableRe : RE := reSeq
  [ .lit ("Table " ++ apostr), .grp 1 (reStar dotC), .lit (apostr ++ " "),
    .grp 2 (reRep digitC 1), .lit "-max Seat #", .grp 3 (reRep digitC 1),
    .lit " is the button", .eos ]

/-- Pattern `_seat_re` (`^Seat (seat \d): (name .*) \((\$)?(stack .*) in chips\).*`). -/
def seatRe : RE := reSeq
  [ .lit "Seat ", .grp 1 (reRep digitC 1), .lit ": ", .grp 2 (reStar dotC),
    .lit " (", .opt (.lit "$"), .grp 3 (reStar dotC), .lit " in chips)",
    reStar dotC ]

/-- Pattern `_hero_re` (`^Dealt to (name .*) \[(card1 ..) (card2 ..)\]$`). -/
def heroRe : RE := reSeq
  [ .lit "Dealt to ", .grp 1 (reStar dotC), .lit " [", .grp 2 (reRep dotC 2),
    .lit " ", .grp 3 (reRep dotC 2), .lit "]", .eos ]

/-- Pattern `_ante_re` (`.*posts the ante (\d*)`); defined by the source but never
used by any section parser. -/
def anteRe : RE := reSeq
  [ reStar dotC, .lit "posts the ante ", .grp 1 (reStar digitC) ]

/-- The blinds matcher built locally by `_parse_blinds`
(`(.*): posts (small|big|small & big) blind[s]? \$?(.*)`). -/
def blindRe : RE := reSeq
  [ .grp 1 (reStar dotC), .lit ": posts ",
    .grp 2 (.alt (.lit "small") (.alt (.lit "big") (.lit "small & big"))),
    .lit " blind", .opt (.lit "s"), .lit " ", .opt (.lit "$"),
    .grp 3 (reStar dotC) ]

/-- The street-action matcher built locally by `_parse_street`
(`(name .*): (action checks|folds|calls|bets|raises) \$?(value [0-9]+(\.[0-9]*))?.*`).
Groups: 1 name, 2 action, 3 value, 4 the inner decimal part.  Note that in
the source the decimal part inside the value group is not optional: a
purely integral amount never matches group 3. -/
def actionRe : RE := reSeq
  [ .grp 1 (reStar dotC), .lit ": ",
    .grp 2 (.alt (.lit "checks") (.alt (.lit "folds")
      (.alt (.lit "calls") (.alt (.lit "bets") (.lit "raises"))))),
    .lit " ", .opt (.lit "$"),
    .opt (.grp 3 (reSeq [rePlus digitC,
      .grp 4 (reSeq [.lit ".", reStar digitC])])),
    reStar dotC ]

/-- A rank character of a card token (`[23456789TJQKA]`). -/
def rankC : Char → Bool := fun c => "23456789TJQKA".data.contains c

/-- A suit character of a card token (`[cdhs]`). -/
def suitC : Char → Bool := fun c => "cdhs".data.contains c

/-- One validated card token inside the flop matcher. -/
def cardTok : RE := reSeq [RE.cls rankC 1 (some 1), RE.cls suitC 1 (some 1)]

/-- The flop matcher of `_parse_flop`
(`\*\*\* FLOP \*\*\* \[(c1) (c2) (c3)\].*` with validated card tokens). -/
def flopRe : RE := reSeq
  [ .lit "*** FLOP *** [", .grp 1 cardTok, .lit " ", .grp 2 cardTok,
    .lit " ", .grp 3 cardTok, .lit "]", reStar dotC ]

/-- The turn matcher of `_parse_turn` (`\*\*\* TURN \*\*\* \[.{8}\] \[(.{2})\].*`). -/
def turnRe : RE := reSeq
  [ .lit "*** TURN *** [", reRep dotC 8, .lit "] [", .grp 1 (reRep dotC 2),
    .lit "]", reStar dotC ]

/-- The river matcher of `_parse_river` (`\*\*\* RIVER \*\*\* \[.{11}\] \[(.{2})\].*`). -/
def riverRe : RE := reSeq
  [ .lit "*** RIVER *** [", reRep dotC 11, .lit "] [", .grp 1 (reRep dotC 2),
    .lit "]", reStar dotC ]

/-- The showdown matcher of `_parse_showdown` (`(.*): shows \[(.{2}) (.{2})\].*`). -/
def showsRe : RE := reSeq
  [ .grp 1 (reStar dotC), .lit ": shows [", .grp 2 (reRep dotC 2),
    .lit " ", .grp 3 (reRep dotC 2), .lit "]", reStar dotC ]

/-- Modelled from the spec: an opaque card value, a two-character token of
rank (closed set `2`-`9`, `T`, `J`, `Q`, `K`, `A`) and suit (closed set
`c`, `d`, `h`, `s`); `card.py` is not among the available sources. -/
structure Card where
  rank : Char
  suit : Char
deriving DecidableEq, Repr

/-- Modelled from the spec: constructing a `Card` from a token validates
rank and suit against the closed sets; an unrecognized token is a hard
error (`ValueError`).  Python `Card(None)` (a group that did not match)
fails as well; we record it as `typeError` like every `None` reaching a
converting constructor. -/
def mkCardE : Option String → Except PErr Card
  | none => .error .typeError
  | some t =>
    match t.data with
    | [r, s] => if rankC r ∧ suitC s then .ok ⟨r, s⟩ else .error (.valueError t)
    | _ => .error (.valueError t)

/-- Modelled from the spec: exactly two cards, order preserved as parsed
(`handhistory.py` is not among the available sources). -/
structure HoleCards where
  c1 : Card
  c2 : Card
deriving DecidableEq, Repr

/-- Modelled from the spec: the closed action set. -/
inductive Action where
  | blind | ante | check | fold | call | bet | raise
deriving DecidableEq, Repr

/-- Modelled from the spec: `Action(word)` converts the verb captured by
the street matcher into the closed action set; an unknown value is a
`ValueError` (`constants.py` is not among the available sources). -/
def actionOfString (s : String) : Except PErr Action :=
  if s = "checks" then .ok .check
  else if s = "folds" then .ok .fold
  else if s = "calls" then .ok .call
  else if s = "bets" then .ok .bet
  else if s = "raises" then .ok .raise
  else .error (.valueError s)

/-- Modelled from the spec: the closed currency set; the header matchers
only ever capture `USD` or `EUR` on the tournament side, anything else is
a `ValueError`. -/
inductive Currency where
  | usd | eur
deriving DecidableEq, Repr

/-- Modelled from the spec: `Currency(text)` conversion. -/
def currencyOfString : Option String → Except PErr Currency
  | none => .error .typeError
  | some s =>
    if s = "USD" then .ok .usd
    else if s = "EUR" then .ok .eur
    else .error (.valueError s)

/-- Modelled from the spec: the closed game set (the vendor format at hand
uses Hold'em). -/
inductive Game where
  | holdem
deriving DecidableEq, Repr

/-- Modelled from the spec: `Game(text)` conversion. -/
def gameOfString : Option String → Except PErr Game
  | none => .error .typeError
  | some s => if s = "Hold" ++ apostr ++ "em" then .ok .holdem
              else .error (.valueError s)

/-- Modelled from the spec: the closed limit set (the tournament matcher
only admits `No Limit`). -/
inductive Limit where
  | noLimit
deriving DecidableEq, Repr

/-- Modelled from the spec: `Limit(text)` conversion. -/
def limitOfString : Option String → Except PErr Limit
  | none => .error .typeError
  | some s => if s = "No Limit" then .ok .noLimit else .error (.valueError s)

/-- Python `Fraction(text)` on the decimal and integral forms the module
feeds it: an exact rational, never floating point.  `digits`,
`digits.digits`, `.digits` and `digits.` are accepted (at least one digit
overall); anything else is a `ValueError`. -/
def parseFraction (v : String) : Option ℚ :=
  match splitOnChar '.' v.data with
  | [a] =>
    if a.all Char.isDigit ∧ a ≠ [] then some (mkRat (digitsValAux 0 a) 1)
    else none
  | [a, b] =>
    if a.all Char.isDigit ∧ b.all Char.isDigit ∧ (a ≠ [] ∨ b ≠ []) then
      some (mkRat (digitsValAux 0 a * 10 ^ b.length + digitsValAux 0 b)
        (10 ^ b.length))
    else none
  | _ => none

/-- Conversion `Fraction(group)` as the source calls it: `Fraction(None)` raises
`TypeError` (the group did not participate in the match), a non-numeric
string raises `ValueError`. -/
def fractionE : Option String → Except PErr ℚ
  | none => .error .typeError
  | some v =>
    match parseFraction v with
    | none => .error (.valueError v)
    | some q => .ok q

/-- Modelled from the spec: one seat slot of the hand record — optional
occupant name, stack and hole cards (empty at construction). -/
structure Seat where
  name : Option String := none
  stack : Option ℚ := none
  holecards : Option HoleCards := none
deriving DecidableEq, Repr

/-- Modelled from the spec: one player action — seat index, member of the
closed action set, optional amount. -/
structure PlayerAction where
  seat : Nat
  action : Action
  amount : Option ℚ := none
deriving DecidableEq, Repr

/-- Modelled from the spec: the structured hand record.  Identity and money
context come from the header, `seats` has fixed length `max_players`, the
action sequences and the board start empty, `showdown` starts `false`. -/
structure HandHistory where
  ident : String
  game_type : String
  sb : ℚ
  bb : ℚ
  currency : Currency
  buyin : Option ℚ := none
  rake : Option ℚ := none
  tournament_ident : Option String := none
  tournament_level : Option String := none
  game : Option Game := none
  limit : Option Limit := none
  table_name : String
  max_players : Nat
  button : Nat
  seats : List Seat
  blinds : List PlayerAction := []
  preflopactions : List PlayerAction := []
  flopactions : List PlayerAction := []
  turnactions : List PlayerAction := []
  riveractions : List PlayerAction := []
  board : List Card := []
  showdown : Bool := false
deriving DecidableEq, Repr

/-- Modelled from the spec: `hh.seat(name)` looks a player up by exact
display-name match and returns the pair (index, seat); a name not found
among the seats is a hard parse error (name-resolution failure). -/
def seatE (hh : HandHistory) (n : String) : Except PErr (Nat × Seat) :=
  match hh.seats.findIdx? (fun st => st.name = some n) with
  | none => .error (.nameResolution n)
  | some i => .ok (i, hh.seats.getD i {})

/-- Python list subscript semantics for `hh.seats[index]`: a negative
index counts from the end, an index out of range raises `IndexError`. -/
def pyIndex (len : Nat) (i : Int) : Except PErr Nat :=
  if 0 ≤ i then
    if i < (len : Int) then .ok i.toNat else .error .indexError
  else
    if -i ≤ (len : Int) then .ok (len - (-i).toNat) else .error .indexError

/-- The property dictionary accumulated by `_parse_header`. -/
structure Props where
  ident : String := ""
  game_type : String := ""
  sb : ℚ := 0
  bb : ℚ := 0
  currency : Currency := .usd
  buyin : Option ℚ := none
  rake : Option ℚ := none
  tournament_ident : Option String := none
  tournament_level : Option String := none
  game : Option Game := none
  limit : Option Limit := none
  table_name : String := ""
  max_players : Nat := 0
  button : Nat := 0
deriving DecidableEq, Repr

/-- Modelled from the spec: `HandHistory(text=None, **properties)` builds
the empty record: seat slots `0 .. max_players - 1` unoccupied, empty
action lists and board, no showdown. -/
def mkHandHistory (p : Props) : HandHistory :=
  { ident := p.ident, game_type := p.game_type, sb := p.sb, bb := p.bb,
    currency := p.currency, buyin := p.buyin, rake := p.rake,
    tournament_ident := p.tournament_ident,
    tournament_level := p.tournament_level, game := p.game,
    limit := p.limit, table_name := p.table_name,
    max_players := p.max_players, button := p.button,
    seats := List.replicate p.max_players {} }

/-- The cursor state of the Python object: `curline` (`none` for the
sentinel `''`) and the remaining lines of the stream. -/
structure PState where
  cur : Option String
  rem : List String
deriving DecidableEq, Repr

/-- The string Python operates on: the current line, `''` at the
sentinel. -/
def curStr (s : PState) : String := s.cur.getD ""

/-- Method `__readline`: pull the next line into `curline`; at end of stream
`curline` becomes the sentinel. -/
def readline (s : PState) : PState :=
  match s.rem with
  | [] => ⟨none, []⟩
  | l :: r => ⟨some l, r⟩

/-- Termination measure of the cursor: every `readline` outside the
absorbing state `⟨none, []⟩` strictly decreases it. -/
def mlen (s : PState) : Nat :=
  2 * s.rem.length + (match s.cur with | some _ => 1 | none => 0)

/-- Method `__seek_next_header`, recursing on the remaining stream: advance until
the current line starts with `PokerStars`, stopping at end of stream. -/
def seekAux : Option String → List String → PState
  | cur, rem =>
    if startsWithS (cur.getD "") "PokerStars" then ⟨cur, rem⟩
    else
      match rem with
      | [] => ⟨none, []⟩
      | l :: r => seekAux (some l) r

/-- Method `__seek_next_header` on a cursor state. -/
def seek_next_header (s : PState) : PState := seekAux s.cur s.rem

/-- The shape shared by every `while match is not None`-style loop of the
source: test the current line, run the body on the captures, read the next
line, repeat; stop at the first non-matching line.  `fuel` makes the
recursion structural; every call site passes `mlen s + 1`, which is proved
sufficient, so `.error .fuelOut` is unreachable there. -/
def loopW {σ α : Type} (test : String → Option α)
    (body : σ → α → String → Except PErr σ) :
    Nat → σ → PState → Except PErr (σ × PState)
  | 0, _, _ => .error .fuelOut
  | fuel + 1, acc, s =>
    match test (curStr s) with
    | none => .ok (acc, s)
    | some a =>
      match body acc a (curStr s) with
      | .error e => .error e
      | .ok acc2 => loopW test body fuel acc2 (readline s)

/-- A `while cond(curline): readline()` skip loop of the source. -/
def skipWhile (cond : String → Bool) (s : PState) : Except PErr PState :=
  (loopW (fun c => if cond c then some () else none)
    (fun a _ _ => .ok a) (mlen s + 1) () s).map (fun x => x.2)

/-- First line of `_parse_header`: dispatch on whether the raw line
contains `Tournament`; in the tournament branch the group accesses happen
before the `if match is None` check, so a failed tournament match is an
`AttributeError` (`.group` on `None`), not a `ParseException`; in the cash
branch a failed match raises `ParseException` carrying the raw line.
Conversion order follows the source. -/
def headerFirst (line : String) : Except PErr Props :=
  if containsSub line "Tournament" then
    match matchTop tournRe line with
    | none => .error .attributeError
    | some caps => do
      let buyin ← fractionE (grpGet caps 4)
      let rake ← fractionE (grpGet caps 5)
      let game ← gameOfString (grpGet caps 7)
      let limit ← limitOfString (grpGet caps 8)
      let sb ← fractionE (grpGet caps 10)
      let bb ← fractionE (grpGet caps 11)
      let currency ← currencyOfString (grpGet caps 6)
      .ok { ident := (grpGet caps 1).getD "",
            game_type := (grpGet caps 2).getD "",
            sb := sb, bb := bb, currency := currency,
            buyin := some buyin, rake := some rake,
            tournament_ident := grpGet caps 3,
            tournament_level := grpGet caps 9,
            game := some game, limit := some limit }
  else
    match matchTop cashRe line with
    | none => .error (.parseException line)
    | some caps => do
      let sb ← fractionE (grpGet caps 3)
      let bb ← fractionE (grpGet caps 4)
      let currency ← currencyOfString (grpGet caps 5)
      .ok { ident := (grpGet caps 1).getD "",
            game_type := (grpGet caps 2).getD "",
            sb := sb, bb := bb, currency := currency }

/-- Method `_parse_header`: the header line, then the table line (mandatory, a
non-match raises `ParseException` with the raw line), then one more
`readline`. -/
def _parse_header (s : PState) : Except PErr (Props × PState) := do
  let props ← headerFirst (curStr s)
  let s1 := readline s
  match matchTop tableRe (curStr s1) with
  | none => .error (.parseException (curStr s1))
  | some caps =>
    .ok ({ props with
           table_name := (grpGet caps 1).getD "",
           max_players := strToNat ((grpGet caps 2).getD ""),
           button := strToNat ((grpGet caps 3).getD "") },
         readline s1)

/-- Body of the `_parse_players` loop: convert the stack (`Fraction`),
subscript `hh.seats[int(seat) - 1]` with Python list-index semantics, set
stack and name. -/
def applySeat (hh : HandHistory) (caps : Caps) : Except PErr HandHistory := do
  let stack ← fractionE (grpGet caps 3)
  let idx ← pyIndex hh.seats.length
    ((strToNat ((grpGet caps 1).getD "") : Int) - 1)
  let old := hh.seats.getD idx {}
  .ok { hh with
        seats := hh.seats.set idx
          { old with stack := some stack, name := grpGet caps 2 } }

/-- Method `_parse_players`: the first seat line is mandatory; then consume seat
lines while they match; then skip `will be allowed to play` notices. -/
def _parse_players (hh : HandHistory) (s : PState) :
    Except PErr (HandHistory × PState) :=
  match matchTop seatRe (curStr s) with
  | none => .error (.parseException (curStr s))
  | some _ => do
    let (hh2, s2) ← loopW (matchTop seatRe)
      (fun acc caps _ => applySeat acc caps) (mlen s + 1) hh s
    let s3 ← skipWhile (fun c => containsSub c "will be allowed to play") s2
    .ok (hh2, s3)

/-- Body of the `_parse_blinds` loop: `Fraction` conversion of the amount,
then the (hard) name lookup, then append a BLIND action carrying the
amount. -/
def blindBody (hh : HandHistory) (acc : List PlayerAction) (caps : Caps) :
    Except PErr (List PlayerAction) := do
  let value ← fractionE (grpGet caps 3)
  let is ← seatE hh ((grpGet caps 1).getD "")
  .ok (acc ++ [{ seat := is.1, action := .blind, amount := some value }])

/-- Method `_parse_blinds`: the first blind line is mandatory; consume blind lines
while they match; skip `sits out` notices; assign the collected list to
`hh.blinds`. -/
def _parse_blinds (hh : HandHistory) (s : PState) :
    Except PErr (HandHistory × PState) :=
  match matchTop blindRe (curStr s) with
  | none => .error (.parseException (curStr s))
  | some _ => do
    let (acts, s2) ← loopW (matchTop blindRe)
      (fun acc caps _ => blindBody hh acc caps) (mlen s + 1) [] s
    let s3 ← skipWhile (fun c => containsSub c "sits out") s2
    .ok ({ hh with blinds := acts }, s3)

/-- Method `_parse_hero`: skip the optional `*** HOLE CARDS ***` marker, then try
the hero line.  On a match the source executes
`name = hh.seat(name).holecards = HoleCards(Card(g2), Card(g3))`: the
right-hand side is evaluated first (card validation can fail), then the
chained assignment rebinds `name` to the HoleCards value and only then
calls `hh.seat` on it; no seat's display name (a string) compares equal to
a HoleCards value, so the lookup is a hard name-resolution failure and the
hero's hole cards are never stored. -/
def _parse_hero (hh : HandHistory) (s : PState) :
    Except PErr (HandHistory × PState) :=
  let s1 := if containsSub (curStr s) "*** HOLE CARDS ***" then readline s else s
  match matchTop heroRe (curStr s1) with
  | none => .ok (hh, s1)
  | some caps => do
    let _c1 ← mkCardE (grpGet caps 2)
    let _c2 ← mkCardE (grpGet caps 3)
    .error (.nameResolution "HoleCards")

/-- Body of the `_parse_street` loop: hard name lookup, `Action`
conversion, and — only for RAISE and BET — the `Fraction(value)`
conversion of the optional value group (a `TypeError` when the group did
not participate in the match). -/
def streetBody (hh : HandHistory) (acc : List PlayerAction) (caps : Caps) :
    Except PErr (List PlayerAction) := do
  let is ← seatE hh ((grpGet caps 1).getD "")
  let a ← actionOfString ((grpGet caps 2).getD "")
  let pa ←
    if a = .raise ∨ a = .bet then do
      let q ← fractionE (grpGet caps 3)
      pure ({ seat := is.1, action := a, amount := some q } : PlayerAction)
    else
      pure ({ seat := is.1, action := a, amount := none } : PlayerAction)
  .ok (acc ++ [pa])

/-- Method `_parse_street`: collect actions while lines match the street-action
pattern; return the ordered list. -/
def _parse_street (hh : HandHistory) (s : PState) :
    Except PErr (List PlayerAction × PState) :=
  loopW (matchTop actionRe) (fun acc caps _ => streetBody hh acc caps)
    (mlen s + 1) [] s

/-- Method `_parse_preflop`. -/
def _parse_preflop (hh : HandHistory) (s : PState) :
    Except PErr (HandHistory × PState) := do
  let as2 ← _parse_street hh s
  .ok ({ hh with preflopactions := as2.1 }, as2.2)

/-- Method `_parse_flop`: optional; on a marker match, replace the board with the
three validated flop cards, read a line, and parse the flop street. -/
def _parse_flop (hh : HandHistory) (s : PState) :
    Except PErr (HandHistory × PState) :=
  match matchTop flopRe (curStr s) with
  | none => .ok (hh, s)
  | some caps => do
    let c1 ← mkCardE (grpGet caps 1)
    let c2 ← mkCardE (grpGet caps 2)
    let c3 ← mkCardE (grpGet caps 3)
    let hh2 := { hh with board := [c1, c2, c3] }
    let as2 ← _parse_street hh2 (readline s)
    .ok ({ hh2 with flopactions := as2.1 }, as2.2)

/-- Method `_parse_turn`: optional; on a marker match, append the turn card to the
board, read a line, and parse the turn street. -/
def _parse_turn (hh : HandHistory) (s : PState) :
    Except PErr (HandHistory × PState) :=
  match matchTop turnRe (curStr s) with
  | none => .ok (hh, s)
  | some caps => do
    let c ← mkCardE (grpGet caps 1)
    let hh2 := { hh with board := hh.board ++ [c] }
    let as2 ← _parse_street hh2 (readline s)
    .ok ({ hh2 with turnactions := as2.1 }, as2.2)

/-- Method `_parse_river`: optional; like the turn. -/
def _parse_river (hh : HandHistory) (s : PState) :
    Except PErr (HandHistory × PState) :=
  match matchTop riverRe (curStr s) with
  | none => .ok (hh, s)
  | some caps => do
    let c ← mkCardE (grpGet caps 1)
    let hh2 := { hh with board := hh.board ++ [c] }
    let as2 ← _parse_street hh2 (readline s)
    .ok ({ hh2 with riveractions := as2.1 }, as2.2)

/-- Body of the showdown `shows` loop: hard name lookup, then card
validation, then store the revealed hole cards on the seat. -/
def showBody (hh : HandHistory) (caps : Caps) : Except PErr HandHistory := do
  let is ← seatE hh ((grpGet caps 1).getD "")
  let c1 ← mkCardE (grpGet caps 2)
  let c2 ← mkCardE (grpGet caps 3)
  let old := hh.seats.getD is.1 {}
  .ok { hh with
        seats := hh.seats.set is.1 { old with holecards := some ⟨c1, c2⟩ } }

/-- Method `_parse_showdown`: optional; on the marker, set the `showdown` flag,
consume `shows` lines, then skip the collected/mucks/doesn't
show/shows tail lines. -/
def _parse_showdown (hh : HandHistory) (s : PState) :
    Except PErr (HandHistory × PState) :=
  if containsSub (curStr s) "*** SHOW DOWN ***" then do
    let hh1 := { hh with showdown := true }
    let s1 := readline s
    let (hh2, s2) ← loopW (matchTop showsRe)
      (fun acc caps _ => showBody acc caps) (mlen s1 + 1) hh1 s1
    let s3 ← skipWhile (fun c =>
      containsSub c "collected" || containsSub c "mucks" ||
      containsSub c ("doesn" ++ apostr ++ "t show") ||
      containsSub c ": shows") s2
    .ok (hh2, s3)
  else
    .ok (hh, s)

/-- Method `parse`: seek the next header, then run every section parser in the
fixed order of the source, returning the completed record and the state
left at the first unconsumed line. -/
def parse (s : PState) : Except PErr (HandHistory × PState) := do
  let s0 := seek_next_header s
  let ps ← _parse_header s0
  let hh0 := mkHandHistory ps.1
  let r1 ← _parse_players hh0 ps.2
  let r2 ← _parse_blinds r1.1 r1.2
  let r3 ← _parse_hero r2.1 r2.2
  let r4 ← _parse_preflop r3.1 r3.2
  let r5 ← _parse_flop r4.1 r4.2
  let r6 ← _parse_turn r5.1 r5.2
  let r7 ← _parse_river r6.1 r6.2
  let r8 ← _parse_showdown r7.1 r7.2
  .ok r8

/-- The generator loop of the `histories` property: while the current line
is not the end-of-stream sentinel, yield `parse()` and re-seek; a raised
exception ends the sequence and is reported in the second component; the
third component is the final cursor state. -/
def historiesLoop : Nat → PState → List HandHistory × Option PErr × PState
  | 0, s => ([], some .fuelOut, s)
  | fuel + 1, s =>
    match s.cur with
    | none => ([], none, s)
    | some _ =>
      match parse s with
      | .error e => ([], some e, s)
      | .ok r =>
        match historiesLoop fuel (seek_next_header r.2) with
        | (l, e, sf) => (r.1 :: l, e, sf)

/-- Property `histories`: `stream.seek(0)` rewinds the stream but leaves `curline`
untouched, then the generator seeks the first header and loops. -/
def histories (contents : List String) (cur : Option String) :
    List HandHistory × Option PErr × PState :=
  let s1 := seek_next_header ⟨cur, contents⟩
  historiesLoop (mlen s1 + 1) s1

/-- Observable effect of `__init__` beyond raising: which input source the
parser ends up bound to. -/
inductive InitAction where
  | openFile (name : String)
  | useStream
deriving DecidableEq, Repr

/-- Constructor `__init__(stream, filename, mode)`: the mode check is the first
statement, so any mode other than `full` raises before a file is opened or
a stream is assigned; with a filename the source asserts that no stream
was passed, then opens the file. -/
def initParser (hasStream : Bool) (filename : Option String) (mode : String) :
    Except PErr InitAction :=
  if mode ≠ "full" then .error .notImplemented
  else
    match filename with
    | some fn => if hasStream then .error .assertionError else .ok (.openFile fn)
    | none => .ok .useStream

/-- A header line in the sense of `__seek_next_header`. -/
def isHeaderL (l : String) : Bool := startsWithS l "PokerStars"

/-- The lines still observable from a cursor state: the current line (when
not the sentinel) followed by the remaining stream. -/
def slines (s : PState) : List String :=
  (match s.cur with | none => [] | some l => [l]) ++ s.rem

/-- Number of header lines observable from a cursor state. -/
def hcount (s : PState) : Nat := (slines s).countP isHeaderL

theorem mlen_readline_le (s : PState) : mlen (readline s) ≤ mlen s := by
  obtain ⟨cur, rem⟩ := s
  cases rem <;> cases cur <;> (simp [readline, mlen]; try omega)

theorem mlen_readline_lt (s : PState) (h : s.cur = none → s.rem ≠ []) :
    mlen (readline s) < mlen s := by
  obtain ⟨cur, rem⟩ := s
  cases rem <;> cases cur <;> (simp_all [readline, mlen]; try omega)

theorem mlen_seekAux_le : ∀ (rem : List String) (cur : Option String),
    mlen (seekAux cur rem) ≤ mlen ⟨cur, rem⟩ := by
  intro rem
  induction rem with
  | nil =>
    intro cur
    rw [seekAux]
    split
    · exact le_refl _
    · simp [mlen]
  | cons l r ih =>
    intro cur
    rw [seekAux]
    split
    · exact le_refl _
    · refine le_trans (ih (some l)) ?_
      cases cur <;> (simp [mlen]; try omega)

theorem mlen_seek_le (s : PState) :
    mlen (seek_next_header s) ≤ mlen s := by
  obtain ⟨cur, rem⟩ := s
  exact mlen_seekAux_le rem cur

theorem hcount_seekAux : ∀ (rem : List String) (cur : Option String),
    hcount (seekAux cur rem) = hcount ⟨cur, rem⟩ := by
  intro rem
  induction rem with
  | nil =>
    intro cur
    rw [seekAux]
    split
    · rfl
    · rename_i hns
      cases cur with
      | none => rfl
      | some l =>
        simp only [Option.getD] at hns
        simp [hcount, slines, List.countP, List.countP.go, isHeaderL, hns]
  | cons l r ih =>
    intro cur
    rw [seekAux]
    split
    · rfl
    · rename_i hns
      rw [ih (some l)]
      cases cur with
      | none => rfl
      | some c =>
        simp only [Option.getD] at hns
        simp [hcount, slines, isHeaderL, List.countP_cons, hns]

theorem hcount_seek (s : PState) : hcount (seek_next_header s) = hcount s := by
  obtain ⟨cur, rem⟩ := s
  exact hcount_seekAux rem cur

theorem seek_of_hcount_zero : ∀ (rem : List String) (cur : Option String),
    hcount ⟨cur, rem⟩ = 0 → seekAux cur rem = ⟨none, []⟩ := by
  intro rem
  induction rem with
  | nil =>
    intro cur h
    rw [seekAux]
    split
    · rename_i hs
      cases cur with
      | none => rfl
      | some l =>
        simp only [Option.getD] at hs
        simp [hcount, slines, List.countP_cons, isHeaderL, hs] at h
    · rfl
  | cons l r ih =>
    intro cur h
    rw [seekAux]
    split
    · rename_i hs
      cases cur with
      | none => exact absurd hs (by decide)
      | some c =>
        exfalso
        simp only [Option.getD] at hs
        simp [hcount, slines, List.countP_cons, isHeaderL, hs] at h
    · refine ih (some l) ?_
      cases cur with
      | none =>
        simp only [hcount, slines, List.countP_cons, List.nil_append,
          List.singleton_append] at h ⊢
        omega
      | some c =>
        simp only [hcount, slines, List.countP_cons, List.singleton_append] at h ⊢
        omega

theorem loopW_mlen_le {σ α : Type} (test : String → Option α)
    (body : σ → α → String → Except PErr σ) :
    ∀ (f : Nat) (acc : σ) (s : PState) (acc' : σ) (s' : PState),
      loopW test body f acc s = .ok (acc', s') → mlen s' ≤ mlen s := by
  intro f
  induction f with
  | zero => intro acc s acc' s' h; simp [loopW] at h
  | succ f ih =>
    intro acc s acc' s' h
    rw [loopW] at h
    split at h
    · cases h; exact le_refl _
    · split at h
      · cases h
      · exact le_trans (ih _ _ _ _ h) (mlen_readline_le s)

theorem loopW_exit {σ α : Type} (test : String → Option α)
    (body : σ → α → String → Except PErr σ) :
    ∀ (f : Nat) (acc : σ) (s : PState) (acc' : σ) (s' : PState),
      loopW test body f acc s = .ok (acc', s') → test (curStr s') = none := by
  intro f
  induction f with
  | zero => intro acc s acc' s' h; simp [loopW] at h
  | succ f ih =>
    intro acc s acc' s' h
    rw [loopW] at h
    split at h
    · cases h; assumption
    · split at h
      · cases h
      · exact ih _ _ _ _ h

theorem loopW_inv {σ α : Type} (test : String → Option α)
    (body : σ → α → String → Except PErr σ) (Q : σ → Prop)
    (hb : ∀ acc a c acc', test c = some a → body acc a c = .ok acc' →
      Q acc → Q acc') :
    ∀ (f : Nat) (acc : σ) (s : PState) (acc' : σ) (s' : PState),
      loopW test body f acc s = .ok (acc', s') → Q acc → Q acc' := by
  intro f
  induction f with
  | zero => intro acc s acc' s' h; simp [loopW] at h
  | succ f ih =>
    intro acc s acc' s' h hq
    rw [loopW] at h
    split at h
    · cases h; exact hq
    · rename_i a ha
      split at h
      · cases h
      · rename_i acc2 hbody
        exact ih _ _ _ _ h (hb _ _ _ _ ha hbody hq)

theorem skipWhile_mlen_le (cond : String → Bool) (s s' : PState)
    (h : skipWhile cond s = .ok s') : mlen s' ≤ mlen s := by
  unfold skipWhile at h
  cases hl : loopW (fun c => if cond c then some () else none)
      (fun a _ _ => .ok a) (mlen s + 1) () s with
  | error e => rw [hl] at h; cases h
  | ok r =>
    rw [hl] at h
    cases h
    exact loopW_mlen_le _ _ _ _ _ _ _ hl

theorem skipWhile_exit (cond : String → Bool) (s s' : PState)
    (h : skipWhile cond s = .ok s') : cond (curStr s') = false := by
  unfold skipWhile at h
  cases hl : loopW (fun c => if cond c then some () else none)
      (fun a _ _ => .ok a) (mlen s + 1) () s with
  | error e => rw [hl] at h; cases h
  | ok r =>
    rw [hl] at h
    cases h
    have := loopW_exit _ _ _ _ _ _ _ hl
    by_contra hc
    simp only [Bool.not_eq_false] at hc
    rw [hc] at this
    cases this

theorem headerFirst_eof : headerFirst "" = .error (.parseException "") := rfl

theorem headerFirst_cur_some (s : PState) (p : Props)
    (h : headerFirst (curStr s) = .ok p) : s.cur ≠ none := by
  intro hn
  rw [show curStr s = "" by rw [curStr, hn]; rfl] at h
  rw [headerFirst_eof] at h
  cases h

theorem _parse_header_mlen (s : PState) (r : Props × PState)
    (h : _parse_header s = .ok r) : mlen r.2 < mlen s := by
  unfold _parse_header at h
  simp only [bind, Except.bind] at h
  split at h
  · cases h
  · rename_i props hp
    split at h
    · cases h
    · cases h
      have hs : s.cur ≠ none := headerFirst_cur_some s props hp
      have h1 : mlen (readline s) < mlen s :=
        mlen_readline_lt s (fun hn => absurd hn hs)
      exact lt_of_le_of_lt (mlen_readline_le (readline s)) h1

theorem _parse_players_mlen (hh : HandHistory) (s : PState)
    (r : HandHistory × PState) (h : _parse_players hh s = .ok r) :
    mlen r.2 ≤ mlen s := by
  unfold _parse_players at h
  split at h
  · cases h
  · simp only [bind, Except.bind] at h
    split at h
    · cases h
    · rename_i v hl
      split at h
      · cases h
      · rename_i s3 hk
        cases h
        exact le_trans (skipWhile_mlen_le _ _ _ hk)
          (loopW_mlen_le _ _ _ _ _ _ _ hl)

theorem _parse_blinds_mlen (hh : HandHistory) (s : PState)
    (r : HandHistory × PState) (h : _parse_blinds hh s = .ok r) :
    mlen r.2 ≤ mlen s := by
  unfold _parse_blinds at h
  split at h
  · cases h
  · simp only [bind, Except.bind] at h
    split at h
    · cases h
    · rename_i v hl
      split at h
      · cases h
      · rename_i s3 hk
        cases h
        exact le_trans (skipWhile_mlen_le _ _ _ hk)
          (loopW_mlen_le _ _ _ _ _ _ _ hl)

theorem _parse_hero_cases (hh : HandHistory) (s : PState)
    (r : HandHistory × PState) (h : _parse_hero hh s = .ok r) :
    r = (hh, s) ∨ r = (hh, readline s) := by
  unfold _parse_hero at h
  split at h <;>
  · dsimp only at h
    split at h
    · cases h; simp
    · simp only [bind, Except.bind] at h
      split at h
      · cases h
      · split at h
        · cases h
        · cases h

theorem _parse_hero_mlen (hh : HandHistory) (s : PState)
    (r : HandHistory × PState) (h : _parse_hero hh s = .ok r) :
    mlen r.2 ≤ mlen s := by
  rcases _parse_hero_cases hh s r h with h1 | h1 <;> subst h1
  · exact le_refl _
  · exact mlen_readline_le s

theorem _parse_street_mlen (hh : HandHistory) (s : PState)
    (r : List PlayerAction × PState) (h : _parse_street hh s = .ok r) :
    mlen r.2 ≤ mlen s := by
  unfold _parse_street at h
  exact loopW_mlen_le _ _ _ _ _ _ _ h

theorem _parse_preflop_mlen (hh : HandHistory) (s : PState)
    (r : HandHistory × PState) (h : _parse_preflop hh s = .ok r) :
    mlen r.2 ≤ mlen s := by
  unfold _parse_preflop at h
  simp only [bind, Except.bind] at h
  split at h
  · cases h
  · rename_i v hv
    cases h
    exact _parse_street_mlen _ _ _ hv

theorem _parse_flop_mlen (hh : HandHistory) (s : PState)
    (r : HandHistory × PState) (h : _parse_flop hh s = .ok r) :
    mlen r.2 ≤ mlen s := by
  unfold _parse_flop at h
  split at h
  · cases h; exact le_refl _
  · simp only [bind, Except.bind] at h
    split at h
    · cases h
    · split at h
      · cases h
      · split at h
        · cases h
        · split at h
          · cases h
          · rename_i v hv
            cases h
            exact le_trans (_parse_street_mlen _ _ _ hv) (mlen_readline_le s)

theorem _parse_turn_mlen (hh : HandHistory) (s : PState)
    (r : HandHistory × PState) (h : _parse_turn hh s = .ok r) :
    mlen r.2 ≤ mlen s := by
  unfold _parse_turn at h
  split at h
  · cases h; exact le_refl _
  · simp only [bind, Except.bind] at h
    split at h
    · cases h
    · split at h
      · cases h
      · rename_i v hv
        cases h
        exact le_trans (_parse_street_mlen _ _ _ hv) (mlen_readline_le s)

theorem _parse_river_mlen (hh : HandHistory) (s : PState)
    (r : HandHistory × PState) (h : _parse_river hh s = .ok r) :
    mlen r.2 ≤ mlen s := by
  unfold _parse_river at h
  split at h
  · cases h; exact le_refl _
  · simp only [bind, Except.bind] at h
    split at h
    · cases h
    · split at h
      · cases h
      · rename_i v hv
        cases h
        exact le_trans (_parse_street_mlen _ _ _ hv) (mlen_readline_le s)

theorem _parse_showdown_mlen (hh : HandHistory) (s : PState)
    (r : HandHistory × PState) (h : _parse_showdown hh s = .ok r) :
    mlen r.2 ≤ mlen s := by
  unfold _parse_showdown at h
  split at h
  · simp only [bind, Except.bind] at h
    split at h
    · cases h
    · rename_i v hl
      split at h
      · cases h
      · rename_i s3 hk
        cases h
        refine le_trans (skipWhile_mlen_le _ _ _ hk) ?_
        exact le_trans (loopW_mlen_le _ _ _ _ _ _ _ hl) (mlen_readline_le s)
  · cases h; exact le_refl _

theorem parse_mlen_lt (s : PState) (r : HandHistory × PState)
    (h : parse s = .ok r) : mlen r.2 < mlen s := by
  unfold parse at h
  simp only [bind, Except.bind] at h
  split at h
  · cases h
  · rename_i ps hps
    split at h
    · cases h
    · rename_i r1 h1
      split at h
      · cases h
      · rename_i r2 h2
        split at h
        · cases h
        · rename_i r3 h3
          split at h
          · cases h
          · rename_i r4 h4
            split at h
            · cases h
            · rename_i r5 h5
              split at h
              · cases h
              · rename_i r6 h6
                split at h
                · cases h
                · rename_i r7 h7
                  split at h
                  · cases h
                  · rename_i r8 h8
                    cases h
                    have c1 := _parse_header_mlen _ _ hps
                    have c2 := _parse_players_mlen _ _ _ h1
                    have c3 := _parse_blinds_mlen _ _ _ h2
                    have c4 := _parse_hero_mlen _ _ _ h3
                    have c5 := _parse_preflop_mlen _ _ _ h4
                    have c6 := _parse_flop_mlen _ _ _ h5
                    have c7 := _parse_turn_mlen _ _ _ h6
                    have c8 := _parse_river_mlen _ _ _ h7
                    have c9 := _parse_showdown_mlen _ _ _ h8
                    have c0 := mlen_seek_le s
                    omega

/-- A stream position holding `n` well-formed hands: either no header line
is observable (zero hands), or seeking reaches a header from which `parse`
succeeds, consuming exactly one header line, followed by `n - 1` further
well-formed hands. -/
inductive WF : PState → Nat → Prop where
  | nil (s : PState) : hcount s = 0 → WF s 0
  | hand (s : PState) (hh : HandHistory) (s' : PState) (n : Nat) :
      (seek_next_header s).cur.isSome = true →
      parse (seek_next_header s) = .ok (hh, s') →
      hcount (seek_next_header s) = hcount s' + 1 →
      WF s' n → WF s (n + 1)

theorem wf_hcount (s : PState) (n : Nat) (h : WF s n) : hcount s = n := by
  induction h with
  | nil s h0 => exact h0
  | hand s hh s' n hsome hparse hcnt hwf ih =>
    rw [← hcount_seek s, hcnt, ih]

theorem historiesLoop_wf : ∀ (s : PState) (n : Nat), WF s n →
    ∀ f, mlen (seek_next_header s) < f →
    (historiesLoop f (seek_next_header s)).1.length = n ∧
    (historiesLoop f (seek_next_header s)).2.1 = none := by
  intro s n hwf
  induction hwf with
  | nil s h0 =>
    intro f hf
    have hseek : seek_next_header s = ⟨none, []⟩ := by
      obtain ⟨cur, rem⟩ := s
      exact seek_of_hcount_zero rem cur h0
    cases f with
    | zero => exact absurd hf (by omega)
    | succ f =>
      rw [hseek, historiesLoop]
      exact ⟨rfl, rfl⟩
  | hand s hh s' n hsome hparse hcnt hwf ih =>
    intro f hf
    cases f with
    | zero => exact absurd hf (by omega)
    | succ f =>
      have h1 : mlen s' < mlen (seek_next_header s) :=
        parse_mlen_lt _ _ hparse
      have h2 : mlen (seek_next_header s') ≤ mlen s' := mlen_seek_le s'
      obtain ⟨ihl, ihe⟩ := ih f (by omega)
      obtain ⟨l, hl⟩ := Option.isSome_iff_exists.mp hsome
      rw [historiesLoop, hl, hparse]
      rcases ht : historiesLoop f (seek_next_header s') with ⟨l', e', sf'⟩
      rw [ht] at ihl ihe
      simp only at ihl ihe
      simp [ht, ihl, ihe]

theorem historiesLoop_final_cur : ∀ (f : Nat) (s : PState),
    (historiesLoop f s).2.1 = none → (historiesLoop f s).2.2.cur = none := by
  intro f
  induction f with
  | zero =>
    intro s h
    rw [historiesLoop] at h
    cases h
  | succ f ih =>
    intro s h
    simp only [historiesLoop] at h ⊢
    cases hc : s.cur with
    | none => simp [hc]
    | some l =>
      simp only [hc] at h ⊢
      cases hp : parse s with
      | error e => simp [hp] at h
      | ok r =>
        simp only [hp] at h ⊢
        rcases ht : historiesLoop f (seek_next_header r.2) with ⟨l', e', sf'⟩
        simp only [ht] at h ⊢
        have := ih (seek_next_header r.2)
        rw [ht] at this
        simp only at this h ⊢
        exact this h

/-- The actions a street loop may produce: the amount is present exactly
for BET and RAISE, and street verbs never convert to BLIND or ANTE. -/
def streetGood (acts : List PlayerAction) : Prop :=
  ∀ pa ∈ acts, (pa.amount.isSome = true ↔ (pa.action = .bet ∨ pa.action = .raise)) ∧
    pa.action ≠ .blind ∧ pa.action ≠ .ante

/-- The actions the blinds loop produces: BLIND actions carrying an
amount. -/
def blindsGood (acts : List PlayerAction) : Prop :=
  ∀ pa ∈ acts, pa.action = .blind ∧ pa.amount.isSome = true

theorem actionOfString_mem (s : String) (a : Action)
    (h : actionOfString s = .ok a) :
    a = .check ∨ a = .fold ∨ a = .call ∨ a = .bet ∨ a = .raise := by
  unfold actionOfString at h
  split at h
  · cases h; exact Or.inl rfl
  · split at h
    · cases h; exact Or.inr (Or.inl rfl)
    · split at h
      · cases h; exact Or.inr (Or.inr (Or.inl rfl))
      · split at h
        · cases h; exact Or.inr (Or.inr (Or.inr (Or.inl rfl)))
        · split at h
          · cases h; exact Or.inr (Or.inr (Or.inr (Or.inr rfl)))
          · cases h

theorem streetBody_good (hh : HandHistory) (acc : List PlayerAction)
    (caps : Caps) (acc' : List PlayerAction)
    (h : streetBody hh acc caps = .ok acc') (hq : streetGood acc) :
    streetGood acc' := by
  unfold streetBody at h
  simp only [bind, Except.bind] at h
  split at h
  · cases h
  · rename_i is his
    split at h
    · cases h
    · rename_i a ha
      split at h
      · rename_i hif
        split at h
        · cases h
        · rename_i q hq'
          cases h
          intro pa hpa
          rcases List.mem_append.mp hpa with hm | hm
          · exact hq pa hm
          · rcases List.mem_singleton.mp hm with rfl
            refine ⟨?_, ?_, ?_⟩
            · simp only [Option.isSome_some, true_iff]
              rcases hif with h1 | h1 <;> simp [h1]
            · rcases actionOfString_mem _ _ ha with h1 | h1 | h1 | h1 | h1 <;>
                simp [h1]
            · rcases actionOfString_mem _ _ ha with h1 | h1 | h1 | h1 | h1 <;>
                simp [h1]
      · rename_i hif
        cases h
        intro pa hpa
        rcases List.mem_append.mp hpa with hm | hm
        · exact hq pa hm
        · rcases List.mem_singleton.mp hm with rfl
          refine ⟨?_, ?_, ?_⟩
          · simp only [Option.isSome_none]
            constructor
            · intro hx; cases hx
            · intro hx
              exact absurd hx.symm hif
          · rcases actionOfString_mem _ _ ha with h1 | h1 | h1 | h1 | h1 <;>
              simp [h1]
          · rcases actionOfString_mem _ _ ha with h1 | h1 | h1 | h1 | h1 <;>
              simp [h1]

theorem _parse_street_good (hh : HandHistory) (s : PState)
    (r : List PlayerAction × PState) (h : _parse_street hh s = .ok r) :
    streetGood r.1 := by
  unfold _parse_street at h
  rcases r with ⟨acts, s'⟩
  refine loopW_inv _ _ streetGood ?_ _ _ _ _ _ h ?_
  · intro acc a c acc' _ hb hq
    exact streetBody_good hh acc a acc' hb hq
  · intro pa hpa
    cases hpa

theorem blindBody_good (hh : HandHistory) (acc : List PlayerAction)
    (caps : Caps) (acc' : List PlayerAction)
    (h : blindBody hh acc caps = .ok acc') (hq : blindsGood acc) :
    blindsGood acc' := by
  unfold blindBody at h
  simp only [bind, Except.bind] at h
  split at h
  · cases h
  · split at h
    · cases h
    · cases h
      intro pa hpa
      rcases List.mem_append.mp hpa with hm | hm
      · exact hq pa hm
      · rcases List.mem_singleton.mp hm with rfl
        exact ⟨rfl, rfl⟩

/-- Equality of all the action lists and the board of two hand records
(the fields the seat-mutating loops never touch). -/
def sameLists (a b : HandHistory) : Prop :=
  a.blinds = b.blinds ∧ a.preflopactions = b.preflopactions ∧
  a.flopactions = b.flopactions ∧ a.turnactions = b.turnactions ∧
  a.riveractions = b.riveractions ∧ a.board = b.board

theorem sameLists_refl (a : HandHistory) : sameLists a a :=
  ⟨rfl, rfl, rfl, rfl, rfl, rfl⟩

theorem applySeat_lists (hh : HandHistory) (caps : Caps) (hh' : HandHistory)
    (h : applySeat hh caps = .ok hh') : sameLists hh' hh := by
  unfold applySeat at h
  simp only [bind, Except.bind] at h
  split at h
  · cases h
  · split at h
    · cases h
    · cases h
      exact sameLists_refl _

theorem _parse_players_lists (hh : HandHistory) (s : PState)
    (r : HandHistory × PState) (h : _parse_players hh s = .ok r) :
    sameLists r.1 hh := by
  unfold _parse_players at h
  split at h
  · cases h
  · simp only [bind, Except.bind] at h
    split at h
    · cases h
    · rename_i v hl
      split at h
      · cases h
      · cases h
        refine loopW_inv _ _ (fun acc => sameLists acc hh) ?_ _ _ _ _ _ hl
          (sameLists_refl hh)
        intro acc a c acc' _ hb hq
        obtain ⟨e1, e2, e3, e4, e5, e6⟩ := applySeat_lists acc a acc' hb
        obtain ⟨f1, f2, f3, f4, f5, f6⟩ := hq
        exact ⟨e1.trans f1, e2.trans f2, e3.trans f3, e4.trans f4,
          e5.trans f5, e6.trans f6⟩

theorem showBody_lists (hh : HandHistory) (caps : Caps) (hh' : HandHistory)
    (h : showBody hh caps = .ok hh') : sameLists hh' hh := by
  unfold showBody at h
  simp only [bind, Except.bind] at h
  split at h
  · cases h
  · split at h
    · cases h
    · split at h
      · cases h
      · cases h
        exact sameLists_refl _

theorem _parse_showdown_lists (hh : HandHistory) (s : PState)
    (r : HandHistory × PState) (h : _parse_showdown hh s = .ok r) :
    sameLists r.1 hh := by
  unfold _parse_showdown at h
  split at h
  · simp only [bind, Except.bind] at h
    split at h
    · cases h
    · rename_i v hl
      split at h
      · cases h
      · cases h
        exact loopW_inv _ _ (fun acc => sameLists acc hh) (by
          intro acc a c acc' _ hb hq
          obtain ⟨e1, e2, e3, e4, e5, e6⟩ := showBody_lists acc a acc' hb
          obtain ⟨f1, f2, f3, f4, f5, f6⟩ := hq
          exact ⟨e1.trans f1, e2.trans f2, e3.trans f3, e4.trans f4,
            e5.trans f5, e6.trans f6⟩) _ _ _ _ _ hl (sameLists_refl _)
  · cases h
    exact sameLists_refl _

theorem _parse_blinds_fields (hh : HandHistory) (s : PState)
    (r : HandHistory × PState) (h : _parse_blinds hh s = .ok r) :
    blindsGood r.1.blinds ∧ r.1.preflopactions = hh.preflopactions ∧
    r.1.flopactions = hh.flopactions ∧ r.1.turnactions = hh.turnactions ∧
    r.1.riveractions = hh.riveractions ∧ r.1.board = hh.board := by
  unfold _parse_blinds at h
  split at h
  · cases h
  · simp only [bind, Except.bind] at h
    split at h
    · cases h
    · rename_i v hl
      split at h
      · cases h
      · cases h
        refine ⟨?_, rfl, rfl, rfl, rfl, rfl⟩
        exact loopW_inv _ _ blindsGood (by
          intro acc a c acc' _ hb hq
          exact blindBody_good hh acc a acc' hb hq) _ _ _ _ _ hl
          (by intro pa hpa; cases hpa)

theorem _parse_preflop_fields (hh : HandHistory) (s : PState)
    (r : HandHistory × PState) (h : _parse_preflop hh s = .ok r) :
    streetGood r.1.preflopactions ∧ r.1.blinds = hh.blinds ∧
    r.1.flopactions = hh.flopactions ∧ r.1.turnactions = hh.turnactions ∧
    r.1.riveractions = hh.riveractions ∧ r.1.board = hh.board := by
  unfold _parse_preflop at h
  simp only [bind, Except.bind] at h
  split at h
  · cases h
  · rename_i v hv
    cases h
    exact ⟨_parse_street_good _ _ _ hv, rfl, rfl, rfl, rfl, rfl⟩

theorem _parse_flop_fields (hh : HandHistory) (s : PState)
    (r : HandHistory × PState) (h : _parse_flop hh s = .ok r) :
    r.1.blinds = hh.blinds ∧ r.1.preflopactions = hh.preflopactions ∧
    r.1.turnactions = hh.turnactions ∧ r.1.riveractions = hh.riveractions ∧
    ((matchTop flopRe (curStr s) = none ∧
        r.1.flopactions = hh.flopactions ∧ r.1.board = hh.board) ∨
      ((matchTop flopRe (curStr s)).isSome = true ∧
        streetGood r.1.flopactions ∧ r.1.board.length = 3)) := by
  unfold _parse_flop at h
  split at h
  · rename_i hm
    cases h
    exact ⟨rfl, rfl, rfl, rfl, Or.inl ⟨hm, rfl, rfl⟩⟩
  · rename_i caps hm
    simp only [bind, Except.bind] at h
    split at h
    · cases h
    · split at h
      · cases h
      · split at h
        · cases h
        · split at h
          · cases h
          · rename_i v hv
            cases h
            exact ⟨rfl, rfl, rfl, rfl,
              Or.inr ⟨by rw [hm]; rfl, _parse_street_good _ _ _ hv, rfl⟩⟩

theorem _parse_turn_fields (hh : HandHistory) (s : PState)
    (r : HandHistory × PState) (h : _parse_turn hh s = .ok r) :
    r.1.blinds = hh.blinds ∧ r.1.preflopactions = hh.preflopactions ∧
    r.1.flopactions = hh.flopactions ∧ r.1.riveractions = hh.riveractions ∧
    ((matchTop turnRe (curStr s) = none ∧
        r.1.turnactions = hh.turnactions ∧ r.1.board = hh.board) ∨
      ((matchTop turnRe (curStr s)).isSome = true ∧
        streetGood r.1.turnactions ∧
        r.1.board.length = hh.board.length + 1)) := by
  unfold _parse_turn at h
  split at h
  · rename_i hm
    cases h
    exact ⟨rfl, rfl, rfl, rfl, Or.inl ⟨hm, rfl, rfl⟩⟩
  · rename_i caps hm
    simp only [bind, Except.bind] at h
    split at h
    · cases h
    · split at h
      · cases h
      · rename_i v hv
        cases h
        refine ⟨rfl, rfl, rfl, rfl, Or.inr ⟨by rw [hm]; rfl,
          _parse_street_good _ _ _ hv, ?_⟩⟩
        simp

theorem _parse_river_fields (hh : HandHistory) (s : PState)
    (r : HandHistory × PState) (h : _parse_river hh s = .ok r) :
    r.1.blinds = hh.blinds ∧ r.1.preflopactions = hh.preflopactions ∧
    r.1.flopactions = hh.flopactions ∧ r.1.turnactions = hh.turnactions ∧
    ((matchTop riverRe (curStr s) = none ∧
        r.1.riveractions = hh.riveractions ∧ r.1.board = hh.board) ∨
      ((matchTop riverRe (curStr s)).isSome = true ∧
        streetGood r.1.riveractions ∧
        r.1.board.length = hh.board.length + 1)) := by
  unfold _parse_river at h
  split at h
  · rename_i hm
    cases h
    exact ⟨rfl, rfl, rfl, rfl, Or.inl ⟨hm, rfl, rfl⟩⟩
  · rename_i caps hm
    simp only [bind, Except.bind] at h
    split at h
    · cases h
    · split at h
      · cases h
      · rename_i v hv
        cases h
        refine ⟨rfl, rfl, rfl, rfl, Or.inr ⟨by rw [hm]; rfl,
          _parse_street_good _ _ _ hv, ?_⟩⟩
        simp

theorem parse_chain (s : PState) (r : HandHistory × PState)
    (h : parse s = .ok r) :
    ∃ ps r1 r2 r3 r4 r5 r6 r7,
      _parse_header (seek_next_header s) = .ok ps ∧
      _parse_players (mkHandHistory ps.1) ps.2 = .ok r1 ∧
      _parse_blinds r1.1 r1.2 = .ok r2 ∧
      _parse_hero r2.1 r2.2 = .ok r3 ∧
      _parse_preflop r3.1 r3.2 = .ok r4 ∧
      _parse_flop r4.1 r4.2 = .ok r5 ∧
      _parse_turn r5.1 r5.2 = .ok r6 ∧
      _parse_river r6.1 r6.2 = .ok r7 ∧
      _parse_showdown r7.1 r7.2 = .ok r := by
  unfold parse at h
  simp only [bind, Except.bind] at h
  split at h
  · cases h
  · rename_i ps hps
    split at h
    · cases h
    · rename_i r1 h1
      split at h
      · cases h
      · rename_i r2 h2
        split at h
        · cases h
        · rename_i r3 h3
          split at h
          · cases h
          · rename_i r4 h4
            split at h
            · cases h
            · rename_i r5 h5
              split at h
              · cases h
              · rename_i r6 h6
                split at h
                · cases h
                · rename_i r7 h7
                  split at h
                  · cases h
                  · rename_i r8 h8
                    cases h
                    exact ⟨ps, r1, r2, r3, r4, r5, r6, r7, hps, h1, h2, h3,
                      h4, h5, h6, h7, h8⟩

/-- The action lists of a hand record in the order the sections fill
them. -/
def allActions (hh : HandHistory) : List PlayerAction :=
  hh.blinds ++ (hh.preflopactions ++ (hh.flopactions ++
    (hh.turnactions ++ hh.riveractions)))

/-- The optional amount of an action is present exactly for the kinds
BLIND, ANTE, BET, RAISE. -/
def amountOk (pa : PlayerAction) : Prop :=
  pa.amount.isSome = true ↔
    (pa.action = .blind ∨ pa.action = .ante ∨ pa.action = .bet ∨
      pa.action = .raise)

theorem blindsGood_amountOk (l : List PlayerAction) (h : blindsGood l) :
    ∀ pa ∈ l, amountOk pa := by
  intro pa hpa
  obtain ⟨ha, hs⟩ := h pa hpa
  unfold amountOk
  rw [hs, ha]
  simp

theorem streetGood_amountOk (l : List PlayerAction) (h : streetGood l) :
    ∀ pa ∈ l, amountOk pa := by
  intro pa hpa
  obtain ⟨hiff, hb, han⟩ := h pa hpa
  unfold amountOk
  rw [hiff]
  constructor
  · intro hx
    exact Or.inr (Or.inr hx)
  · intro hx
    rcases hx with hx | hx | hx
    · exact absurd hx hb
    · exact absurd hx han
    · exact hx

/-- C8: every `PlayerAction` produced by parsing carries an amount exactly
when its kind is BLIND, ANTE, BET or RAISE; CHECK, FOLD and CALL actions
carry no amount even when the source line shows one (the call amount is
discarded).  (ANTE actions are never produced, so the ANTE case holds
vacuously.) -/
theorem action_amount_iff_kind (s : PState) (hh : HandHistory) (s' : PState)
    (h : parse s = .ok (hh, s')) : ∀ pa ∈ allActions hh, amountOk pa := by
  obtain ⟨ps, r1, r2, r3, r4, r5, r6, r7, hps, h1, h2, h3, h4, h5, h6, h7, h8⟩ :=
    parse_chain s (hh, s') h
  have hero31 : r3.1 = r2.1 := by
    rcases _parse_hero_cases _ _ _ h3 with he | he <;> rw [he]
  obtain ⟨pl1, pl2, pl3, pl4, pl5, pl6⟩ := _parse_players_lists _ _ _ h1
  obtain ⟨bg, bf2, bf3, bf4, bf5, bf6⟩ := _parse_blinds_fields _ _ _ h2
  obtain ⟨pg, pf2, pf3, pf4, pf5, pf6⟩ := _parse_preflop_fields _ _ _ h4
  obtain ⟨ff1, ff2, ff3, ff4, ffd⟩ := _parse_flop_fields _ _ _ h5
  obtain ⟨tf1, tf2, tf3, tf4, tfd⟩ := _parse_turn_fields _ _ _ h6
  obtain ⟨rf1, rf2, rf3, rf4, rfd⟩ := _parse_river_fields _ _ _ h7
  have hsd := _parse_showdown_lists _ _ _ h8
  dsimp only at hsd
  obtain ⟨sd1, sd2, sd3, sd4, sd5, sd6⟩ := hsd
  have hbl : hh.blinds = r2.1.blinds := by
    rw [sd1, rf1, tf1, ff1, pf2, hero31]
  have hpre : hh.preflopactions = r4.1.preflopactions := by
    rw [sd2, rf2, tf2, ff2]
  have hflop : hh.flopactions = r5.1.flopactions := by
    rw [sd3, rf3, tf3]
  have hturn : hh.turnactions = r6.1.turnactions := by
    rw [sd4, rf4]
  have hriver : hh.riveractions = r7.1.riveractions := sd5
  have hflop0 : r4.1.flopactions = [] := by
    rw [pf3, hero31, bf3, pl3]
    simp [mkHandHistory]
  have hturn0 : r5.1.turnactions = [] := by
    rw [ff3, pf4, hero31, bf4, pl4]
    simp [mkHandHistory]
  have hriver0 : r6.1.riveractions = [] := by
    rw [tf4, ff4, pf5, hero31, bf5, pl5]
    simp [mkHandHistory]
  intro pa hpa
  unfold allActions at hpa
  rcases List.mem_append.mp hpa with hm | hpa
  · exact blindsGood_amountOk _ (hbl ▸ bg) pa hm
  rcases List.mem_append.mp hpa with hm | hpa
  · exact streetGood_amountOk _ (hpre ▸ pg) pa hm
  rcases List.mem_append.mp hpa with hm | hpa
  · rw [hflop] at hm
    rcases ffd with ⟨_, hfe, _⟩ | ⟨_, hfg, _⟩
    · rw [hfe, hflop0] at hm
      cases hm
    · exact streetGood_amountOk _ hfg pa hm
  rcases List.mem_append.mp hpa with hm | hm
  · rw [hturn] at hm
    rcases tfd with ⟨_, hte, _⟩ | ⟨_, htg, _⟩
    · rw [hte, hturn0] at hm
      cases hm
    · exact streetGood_amountOk _ htg pa hm
  · rw [hriver] at hm
    rcases rfd with ⟨_, hre, _⟩ | ⟨_, hrg, _⟩
    · rw [hre, hriver0] at hm
      cases hm
    · exact streetGood_amountOk _ hrg pa hm

/-- C7 (amended): after `parse` completes a hand, the board length is
`3·f + t + r` where `f`, `t` and `r` say whether the flop, turn and river
marker lines matched at the states the corresponding section parsers saw
(the intermediate states are pinned down by the section equations): the
flop installs exactly three validated cards, the turn and the river each
append exactly one, and each street is independently optional.  So the
length lies in `{0, 1, 2, 3, 4, 5}`; when the markers occur in street
order (a turn only after a flop, a river only after a turn) the length
lies in `{0, 3, 4, 5}`; and a length of 1 or 2 arises only when no flop
marker matched but a turn or river marker did. -/
theorem board_length_amended (s : PState) (hh : HandHistory) (s' : PState)
    (h : parse s = .ok (hh, s')) :
    ∃ ps r1 r2 r3 r4 r5 r6 r7,
      _parse_header (seek_next_header s) = .ok ps ∧
      _parse_players (mkHandHistory ps.1) ps.2 = .ok r1 ∧
      _parse_blinds r1.1 r1.2 = .ok r2 ∧
      _parse_hero r2.1 r2.2 = .ok r3 ∧
      _parse_preflop r3.1 r3.2 = .ok r4 ∧
      _parse_flop r4.1 r4.2 = .ok r5 ∧
      _parse_turn r5.1 r5.2 = .ok r6 ∧
      _parse_river r6.1 r6.2 = .ok r7 ∧
      _parse_showdown r7.1 r7.2 = .ok (hh, s') ∧
      hh.board.length =
        (if (matchTop flopRe (curStr r4.2)).isSome then 3 else 0) +
        (if (matchTop turnRe (curStr r5.2)).isSome then 1 else 0) +
        (if (matchTop riverRe (curStr r6.2)).isSome then 1 else 0) ∧
      (((matchTop turnRe (curStr r5.2)).isSome = true →
          (matchTop flopRe (curStr r4.2)).isSome = true) →
        ((matchTop riverRe (curStr r6.2)).isSome = true →
          (matchTop turnRe (curStr r5.2)).isSome = true) →
        (hh.board.length = 0 ∨ hh.board.length = 3 ∨
          hh.board.length = 4 ∨ hh.board.length = 5)) ∧
      ((hh.board.length = 1 ∨ hh.board.length = 2) →
        (matchTop flopRe (curStr r4.2)).isSome = false ∧
        ((matchTop turnRe (curStr r5.2)).isSome = true ∨
          (matchTop riverRe (curStr r6.2)).isSome = true)) := by
  obtain ⟨ps, r1, r2, r3, r4, r5, r6, r7, hps, h1, h2, h3, h4, h5, h6, h7, h8⟩ :=
    parse_chain s (hh, s') h
  have hero31 : r3.1 = r2.1 := by
    rcases _parse_hero_cases _ _ _ h3 with he | he <;> rw [he]
  obtain ⟨pl1, pl2, pl3, pl4, pl5, pl6⟩ := _parse_players_lists _ _ _ h1
  obtain ⟨bg, bf2, bf3, bf4, bf5, bf6⟩ := _parse_blinds_fields _ _ _ h2
  obtain ⟨pg, pf2, pf3, pf4, pf5, pf6⟩ := _parse_preflop_fields _ _ _ h4
  obtain ⟨ff1, ff2, ff3, ff4, ffd⟩ := _parse_flop_fields _ _ _ h5
  obtain ⟨tf1, tf2, tf3, tf4, tfd⟩ := _parse_turn_fields _ _ _ h6
  obtain ⟨rf1, rf2, rf3, rf4, rfd⟩ := _parse_river_fields _ _ _ h7
  have hsd := _parse_showdown_lists _ _ _ h8
  dsimp only at hsd
  obtain ⟨sd1, sd2, sd3, sd4, sd5, sd6⟩ := hsd
  have h4b : r4.1.board = [] := by
    rw [pf6, hero31, bf6, pl6]
    simp [mkHandHistory]
  have hF : r5.1.board.length =
      (if (matchTop flopRe (curStr r4.2)).isSome then 3 else 0) := by
    rcases ffd with ⟨hm, _, hb⟩ | ⟨hm, _, hl⟩
    · rw [hb, h4b, hm]
      rfl
    · rw [hl, hm]
      rfl
  have hT : r6.1.board.length = r5.1.board.length +
      (if (matchTop turnRe (curStr r5.2)).isSome then 1 else 0) := by
    rcases tfd with ⟨hm, _, hb⟩ | ⟨hm, _, hl⟩
    · rw [hb, hm]
      rfl
    · rw [hl, hm]
      rfl
  have hR : r7.1.board.length = r6.1.board.length +
      (if (matchTop riverRe (curStr r6.2)).isSome then 1 else 0) := by
    rcases rfd with ⟨hm, _, hb⟩ | ⟨hm, _, hl⟩
    · rw [hb, hm]
      rfl
    · rw [hl, hm]
      rfl
  have hlen : hh.board.length =
      (if (matchTop flopRe (curStr r4.2)).isSome then 3 else 0) +
      (if (matchTop turnRe (curStr r5.2)).isSome then 1 else 0) +
      (if (matchTop riverRe (curStr r6.2)).isSome then 1 else 0) := by
    rw [sd6, hR, hT, hF]
  refine ⟨ps, r1, r2, r3, r4, r5, r6, r7, hps, h1, h2, h3, h4, h5, h6, h7, h8,
    hlen, ?_, ?_⟩
  · intro hto hro
    rw [hlen]
    cases hf : (matchTop flopRe (curStr r4.2)).isSome <;>
      cases ht : (matchTop turnRe (curStr r5.2)).isSome <;>
        cases hr : (matchTop riverRe (curStr r6.2)).isSome <;>
          simp_all
  · intro h12
    rw [hlen] at h12
    cases hf : (matchTop flopRe (curStr r4.2)).isSome <;>
      cases ht : (matchTop turnRe (curStr r5.2)).isSome <;>
        cases hr : (matchTop riverRe (curStr r6.2)).isSome <;>
          simp_all

theorem curStr_some (l : String) (rem : List String) :
    curStr ⟨some l, rem⟩ = l := rfl

theorem curStr_none (rem : List String) : curStr ⟨none, rem⟩ = "" := rfl

theorem seekAux_nohdr_cons (l : String) (r : List String) :
    seekAux none (l :: r) = seekAux (some l) r := by
  conv_lhs => rw [seekAux]
  rw [if_neg (by decide)]

theorem seekAux_hdr (l : String) (r : List String)
    (h : startsWithS l "PokerStars" = true) :
    seekAux (some l) r = ⟨some l, r⟩ := by
  have hc : startsWithS ((some l).getD "") "PokerStars" = true := by
    simpa using h
  cases r with
  | nil =>
    rw [seekAux]
    rw [if_pos hc]
  | cons x xs =>
    rw [seekAux]
    rw [if_pos hc]

/-- A seat line the players loop can process against a record with `N`
seat slots: it matches the seat pattern, its stack text converts, and its
one-digit seat number lies in `1 .. N`. -/
def seatLineOK (N : Nat) (l : String) : Bool :=
  match matchTop seatRe l with
  | none => false
  | some caps =>
    (fractionE (grpGet caps 3)).isOk &&
      Nat.ble 1 (strToNat ((grpGet caps 1).getD "")) &&
      Nat.ble (strToNat ((grpGet caps 1).getD "")) N

theorem seatLineOK_matches (N : Nat) (l : String)
    (h : seatLineOK N l = true) : ∃ caps, matchTop seatRe l = some caps := by
  unfold seatLineOK at h
  cases hm : matchTop seatRe l with
  | none => rw [hm] at h; cases h
  | some caps => exact ⟨caps, rfl⟩

theorem applySeat_ok (hh : HandHistory) (l : String) (caps : Caps) (N : Nat)
    (hN : hh.seats.length = N) (hm : matchTop seatRe l = some caps)
    (hok : seatLineOK N l = true) :
    ∃ hh', applySeat hh caps = .ok hh' ∧ hh'.seats.length = N := by
  unfold seatLineOK at hok
  rw [hm] at hok
  simp only [Bool.and_eq_true, Nat.ble_eq] at hok
  obtain ⟨⟨hfr, hge⟩, hle⟩ := hok
  unfold applySeat
  simp only [bind, Except.bind]
  cases hfe : fractionE (grpGet caps 3) with
  | error e => rw [hfe] at hfr; cases hfr
  | ok q =>
    cases hpi : pyIndex hh.seats.length
        ((strToNat ((grpGet caps 1).getD "") : Int) - 1) with
    | error e =>
      exfalso
      unfold pyIndex at hpi
      split at hpi
      · split at hpi
        · cases hpi
        · rename_i hlt
          apply hlt
          omega
      · rename_i hge2
        apply hge2
        omega
    | ok idx =>
      dsimp only
      exact ⟨_, rfl, by simp [List.length_set, hN]⟩

theorem playersLoop_eof : ∀ (lines : List String) (cur : String)
    (hh : HandHistory) (N : Nat) (fuel : Nat),
    hh.seats.length = N →
    seatLineOK N cur = true →
    (∀ l ∈ lines, seatLineOK N l = true) →
    2 * lines.length + 1 < fuel →
    ∃ hh2, loopW (matchTop seatRe) (fun acc caps _ => applySeat acc caps)
        fuel hh ⟨some cur, lines⟩ = .ok (hh2, ⟨none, []⟩) ∧
      hh2.seats.length = N := by
  intro lines
  induction lines with
  | nil =>
    intro cur hh N fuel hN hcur _ hfuel
    cases fuel with
    | zero => omega
    | succ f =>
      cases f with
      | zero => omega
      | succ f2 =>
        obtain ⟨caps, hcaps⟩ := seatLineOK_matches N cur hcur
        obtain ⟨hh', hap, hlen⟩ := applySeat_ok hh cur caps N hN hcaps hcur
        have hend : matchTop seatRe "" = none := by decide
        refine ⟨hh', ?_, hlen⟩
        rw [loopW]
        simp only [curStr_some, hcaps, hap, readline]
        rw [loopW]
        simp only [curStr_none, hend]
  | cons l rest ih =>
    intro cur hh N fuel hN hcur hlines hfuel
    cases fuel with
    | zero => omega
    | succ f =>
      obtain ⟨caps, hcaps⟩ := seatLineOK_matches N cur hcur
      obtain ⟨hh', hap, hlen⟩ := applySeat_ok hh cur caps N hN hcaps hcur
      obtain ⟨hh2, hloop, hlen2⟩ := ih l hh' N f hlen
        (hlines l (List.mem_cons_self l rest))
        (fun x hx => hlines x (List.mem_cons_of_mem l hx))
        (by simp at hfuel ⊢; omega)
      refine ⟨hh2, ?_, hlen2⟩
      rw [loopW]
      simp only [curStr_some, hcaps, hap, readline]
      exact hloop

/-- A concrete cash-game header line. -/
def hLine : String :=
  "PokerStars Hand #1:  " ++ holdemNL ++ " ($1/$2 USD) - 2020/01/01 12:00:00 ET"

/-- A concrete table line. -/
def tLine : String :=
  "Table " ++ apostr ++ "T" ++ apostr ++ " 2-max Seat #1 is the button"

/-- A complete concrete hand: header, table, two seats, two blinds, a
preflop call and check, a flop with one bet, and a fold that (having no
trailing text after the verb) ends the flop street. -/
def exStream : List String :=
  [hLine, tLine, "Seat 1: A ($40 in chips)", "Seat 2: B ($38 in chips)",
   "A: posts small blind $1", "B: posts big blind $2",
   "B: calls $1", "A: checks ",
   "*** FLOP *** [Ah 7d 5d]", "A: bets $2.50", "B: folds"]

/-- The record and final state `parse` produces on `exStream`. -/
def exParse : HandHistory × PState :=
  match parse ⟨none, exStream⟩ with
  | .ok r => r
  | .error _ => (mkHandHistory {}, ⟨none, []⟩)

/-- The hand record parsed from `exStream`. -/
def exHH : HandHistory := exParse.1

/-- The final cursor state after parsing `exStream`. -/
def exS : PState := exParse.2

/-- A stream that ends mid-hand, immediately after a preflop action. -/
def truncStream : List String :=
  [hLine, tLine, "Seat 1: A ($40 in chips)", "A: posts small blind $1",
   "A: calls $1"]

/-- A malformed stream holding a turn marker with no preceding flop. -/
def turnOnlyStream : List String :=
  [hLine, tLine, "Seat 1: A ($40 in chips)", "A: posts small blind $1",
   "*** TURN *** [Ah 7d 5d] [Qh]"]

/-- A stream containing a hero hole-cards line. -/
def heroStream : List String :=
  [hLine, tLine, "Seat 1: A ($40 in chips)", "A: posts small blind $1",
   "*** HOLE CARDS ***", "Dealt to A [Ah Kd]"]

/-- The street-action line of the spec scenario, with integral amounts. -/
def raiseLine : String := "A: raises $20 to $30"

/-- A stream whose preflop starts with the integral raise line. -/
def raiseStream : List String :=
  [hLine, tLine, "Seat 1: A ($40 in chips)", "A: posts small blind $1",
   raiseLine]

/-- An ante line in the blinds section. -/
def anteLine : String := "A: posts the ante 5"

/-- A one-seat hand record with player `A`, as the blinds section
receives it. -/
def c6hh : HandHistory :=
  { mkHandHistory { max_players := 1 } with
    seats := [{ name := some "A", stack := some (mkRat 40 1) }] }

/-- The blinds-section state whose current line posts a small blind. -/
def c6state : PState := ⟨some "A: posts small blind $1", []⟩

/-- Result of the blinds section on `c6state`. -/
def c6res : HandHistory × PState :=
  match _parse_blinds c6hh c6state with
  | .ok r => r
  | .error _ => (c6hh, c6state)

/-- Blinds-section state holding a small-blind line, then an ante line,
then a further blind line. -/
def c6state2 : PState :=
  ⟨some "A: posts small blind $1", [anteLine, "A: posts big blind $2"]⟩

/-- Result of the blinds section on `c6state2`. -/
def c6res2 : HandHistory × PState :=
  match _parse_blinds c6hh c6state2 with
  | .ok r => r
  | .error _ => (c6hh, c6state2)

/-- C1: over a stream whose headers each begin a well-formed hand,
iterating `histories` yields exactly as many records as there are header
lines and then terminates cleanly; in particular a stream with no header
lines (the empty stream included) yields the empty sequence and raises no
error (the `WF _ 0` case). -/
theorem histories_counts_headers (contents : List String) (n : Nat)
    (h : WF ⟨none, contents⟩ n) :
    (histories contents none).1.length = n ∧
    (histories contents none).2.1 = none ∧
    hcount ⟨none, contents⟩ = n := by
  have hm := historiesLoop_wf ⟨none, contents⟩ n h
    (mlen (seek_next_header ⟨none, contents⟩) + 1) (by omega)
  exact ⟨hm.1, hm.2, wf_hcount _ _ h⟩

/-- C1 witness: a stream with one non-header line satisfies `WF _ 0` and
yields the empty sequence with no error. -/
theorem histories_counts_headers_witness :
    (histories ["hello"] none).1.length = 0 ∧
    (histories ["hello"] none).2.1 = none ∧
    hcount ⟨none, ["hello"]⟩ = 0 :=
  histories_counts_headers ["hello"] 0 (WF.nil _ (by decide))

/-- C2 counterexample: a line containing `Tournament` that matches neither
header shape does not raise a parse error carrying the raw line — the
tournament branch accesses `.group` on `None` before the `None` check, so
Python raises `AttributeError` instead, and the cash shape is never
attempted. -/
theorem header_neither_shape_cx :
    containsSub "PokerStars Tournament junk" "Tournament" = true ∧
    matchTop tournRe "PokerStars Tournament junk" = none ∧
    matchTop cashRe "PokerStars Tournament junk" = none ∧
    headerFirst "PokerStars Tournament junk" = .error .attributeError ∧
    headerFirst "PokerStars Tournament junk" ≠
      .error (.parseException "PokerStars Tournament junk") := by
  refine ⟨by decide, by decide, by decide, by decide, by decide⟩

/-- C2 (amended): header parsing dispatches on whether the raw line
contains `Tournament` and attempts only one shape: in the tournament
branch a failed match raises an attribute-access error (`.group` on
`None`) that does not carry the line, and in the cash branch a failed
match raises a hard parse error carrying the raw line. -/
theorem header_dispatch_amended (line : String) :
    (containsSub line "Tournament" = true → matchTop tournRe line = none →
      headerFirst line = .error .attributeError) ∧
    (containsSub line "Tournament" = false → matchTop cashRe line = none →
      headerFirst line = .error (.parseException line)) := by
  constructor
  · intro h1 h2
    unfold headerFirst
    simp [h1, h2]
  · intro h1 h2
    unfold headerFirst
    simp [h1, h2]

/-- C2 witness: both branches of the amended dispatch at concrete lines. -/
theorem header_dispatch_amended_witness :
    headerFirst "PokerStars Tournament x" = .error .attributeError ∧
    headerFirst "nonheader" = .error (.parseException "nonheader") :=
  ⟨(header_dispatch_amended "PokerStars Tournament x").1 (by decide)
      (by decide),
    (header_dispatch_amended "nonheader").2 (by decide) (by decide)⟩

/-- C3 counterexample: a stream that ends mid-hand right after a preflop
action line — `parse` returns a record instead of raising, because every
section after the first blind line is optional. -/
theorem parse_truncated_returns_record_cx :
    (matchTop actionRe "A: calls $1").isSome = true ∧
    (parse ⟨none, truncStream⟩).isOk = true := by
  refine ⟨by decide, by decide⟩

/-- C3 (amended): truncation is detected only inside the mandatory
sections, and the raised error carries the raw current line (the empty
end-of-stream line) with no section information.  A stream ending before
the table line, before the first seat line, or — after any run of
processable seat lines — before the first blind line makes `parse` raise
`ParseException ""`.  Once the first blind line is consumed, end of
stream itself never raises: at the end-of-stream state every later
section (hole cards, each street, showdown) completes without consuming
anything and without adding content, leaving those sections absent, and
a stream truncated right after a preflop action returns a record. -/
theorem parse_truncation_amended :
    (∀ hdr : String, startsWithS hdr "PokerStars" = true →
      (headerFirst hdr).isOk = true →
      parse ⟨none, [hdr]⟩ = .error (.parseException "")) ∧
    (∀ hdr tbl : String, startsWithS hdr "PokerStars" = true →
      (headerFirst hdr).isOk = true → (matchTop tableRe tbl).isSome = true →
      parse ⟨none, [hdr, tbl]⟩ = .error (.parseException "")) ∧
    (∀ (hdr tbl s1 : String) (rest : List String) (tblcaps : Caps),
      startsWithS hdr "PokerStars" = true →
      (headerFirst hdr).isOk = true →
      matchTop tableRe tbl = some tblcaps →
      seatLineOK (strToNat ((grpGet tblcaps 2).getD "")) s1 = true →
      (∀ l ∈ rest, seatLineOK (strToNat ((grpGet tblcaps 2).getD "")) l = true) →
      parse ⟨none, hdr :: tbl :: s1 :: rest⟩ = .error (.parseException "")) ∧
    (∀ hh : HandHistory,
      _parse_hero hh ⟨none, []⟩ = .ok (hh, ⟨none, []⟩) ∧
      _parse_preflop hh ⟨none, []⟩ =
        .ok ({ hh with preflopactions := [] }, ⟨none, []⟩) ∧
      _parse_flop hh ⟨none, []⟩ = .ok (hh, ⟨none, []⟩) ∧
      _parse_turn hh ⟨none, []⟩ = .ok (hh, ⟨none, []⟩) ∧
      _parse_river hh ⟨none, []⟩ = .ok (hh, ⟨none, []⟩) ∧
      _parse_showdown hh ⟨none, []⟩ = .ok (hh, ⟨none, []⟩)) ∧
    (parse ⟨none, truncStream⟩).isOk = true := by
  refine ⟨?_, ?_, ?_, ?_, by decide⟩
  · intro hdr h1 h2
    have hseek : seek_next_header (⟨none, [hdr]⟩ : PState) =
        ⟨some hdr, []⟩ := by
      show seekAux none [hdr] = _
      rw [seekAux_nohdr_cons, seekAux_hdr _ _ h1]
    cases hhf : headerFirst hdr with
    | error e => rw [hhf] at h2; cases h2
    | ok props =>
      have htbl : matchTop tableRe "" = none := by decide
      unfold parse
      rw [hseek]
      simp only [_parse_header, bind, Except.bind, curStr, Option.getD,
        readline, hhf, htbl]
  · intro hdr tbl h1 h2 h3
    have hseek : seek_next_header (⟨none, [hdr, tbl]⟩ : PState) =
        ⟨some hdr, [tbl]⟩ := by
      show seekAux none [hdr, tbl] = _
      rw [seekAux_nohdr_cons, seekAux_hdr _ _ h1]
    cases hhf : headerFirst hdr with
    | error e => rw [hhf] at h2; cases h2
    | ok props =>
      cases hmt : matchTop tableRe tbl with
      | none => rw [hmt] at h3; cases h3
      | some caps =>
        have hseat : matchTop seatRe "" = none := by decide
        unfold parse
        rw [hseek]
        simp only [_parse_header, _parse_players, bind, Except.bind, curStr,
          Option.getD, readline, hmt, hhf, hseat]
  · intro hdr tbl s1 rest tblcaps h1 h2 h3 h4 h5
    have hseek : seek_next_header (⟨none, hdr :: tbl :: s1 :: rest⟩ : PState) =
        ⟨some hdr, tbl :: s1 :: rest⟩ := by
      show seekAux none (hdr :: tbl :: s1 :: rest) = _
      rw [seekAux_nohdr_cons, seekAux_hdr _ _ h1]
    cases hhf : headerFirst hdr with
    | error e => rw [hhf] at h2; cases h2
    | ok props =>
      have hN : (mkHandHistory { props with
          table_name := (grpGet tblcaps 1).getD "",
          max_players := strToNat ((grpGet tblcaps 2).getD ""),
          button := strToNat ((grpGet tblcaps 3).getD "") }).seats.length =
          strToNat ((grpGet tblcaps 2).getD "") := by
        simp [mkHandHistory]
      obtain ⟨hh2, hloop, _⟩ := playersLoop_eof rest s1 _ _
        (mlen ⟨some s1, rest⟩ + 1) hN h4 h5 (by simp [mlen])
      simp only [Option.getD] at hloop
      obtain ⟨s1caps, hs1⟩ := seatLineOK_matches _ s1 h4
      have hskip : skipWhile (fun c => containsSub c "will be allowed to play")
          ⟨none, []⟩ = .ok ⟨none, []⟩ := by decide
      have hbl : matchTop blindRe "" = none := by decide
      unfold parse
      rw [hseek]
      simp only [_parse_header, _parse_players, _parse_blinds, bind,
        Except.bind, curStr, Option.getD, readline, hhf, h3, hs1, hloop,
        hskip, hbl]
  · intro hh
    have eh : matchTop heroRe "" = none := by decide
    have ea : matchTop actionRe "" = none := by decide
    have ef : matchTop flopRe "" = none := by decide
    have et : matchTop turnRe "" = none := by decide
    have er : matchTop riverRe "" = none := by decide
    have ec1 : containsSub "" "*** HOLE CARDS ***" = false := by decide
    have ec2 : containsSub "" "*** SHOW DOWN ***" = false := by decide
    refine ⟨?_, ?_, ?_, ?_, ?_, ?_⟩
    · simp only [_parse_hero, curStr, Option.getD, ec1, eh]
      rfl
    · simp only [_parse_preflop, _parse_street, bind, Except.bind]
      rw [show mlen (⟨none, []⟩ : PState) + 1 = 1 from rfl]
      rw [loopW]
      simp only [curStr, Option.getD, ea]
    · simp only [_parse_flop, curStr, Option.getD, ef]
    · simp only [_parse_turn, curStr, Option.getD, et]
    · simp only [_parse_river, curStr, Option.getD, er]
    · simp only [_parse_showdown, curStr, Option.getD, ec2]
      rfl

/-- C3 witness: all three mandatory truncation points applied at the
concrete header, table and seat lines, and the end-of-stream behaviour of
an optional section at a concrete record. -/
theorem parse_truncation_amended_witness :
    parse ⟨none, [hLine]⟩ = .error (.parseException "") ∧
    parse ⟨none, [hLine, tLine]⟩ = .error (.parseException "") ∧
    parse ⟨none, [hLine, tLine, "Seat 1: A ($40 in chips)"]⟩ =
      .error (.parseException "") ∧
    _parse_flop (mkHandHistory {}) ⟨none, []⟩ =
      .ok (mkHandHistory {}, ⟨none, []⟩) :=
  ⟨parse_truncation_amended.1 hLine (by decide) (by decide),
    parse_truncation_amended.2.1 hLine tLine (by decide) (by decide)
      (by decide),
    parse_truncation_amended.2.2.1 hLine tLine "Seat 1: A ($40 in chips)" []
      ((matchTop tableRe tLine).getD []) (by decide) (by decide) (by decide)
      (by decide) (by intro l hl; cases hl),
    (parse_truncation_amended.2.2.2.1 (mkHandHistory {})).2.2.1⟩

/-- C4 (code bug): any hand containing a `Dealt to` hero line aborts with
a name-resolution failure instead of storing the hero's hole cards: the
chained assignment `name = hh.seat(name).holecards = HoleCards(...)`
rebinds `name` to the freshly built HoleCards value before `hh.seat` is
called, so the lookup can never find a seat (and even if it could, the
result of `hh.seat` is an (index, seat) pair, not a seat). -/
theorem hero_line_crashes :
    (matchTop heroRe "Dealt to A [Ah Kd]").isSome = true ∧
    parse ⟨none, heroStream⟩ = .error (.nameResolution "HoleCards") := by
  refine ⟨by decide, by decide⟩

/-- C5 (code bug): the street matcher's value group `[0-9]+(\.[0-9]*)`
requires a decimal point, so on `A: raises $20 to $30` the line matches
but the value group stays empty, and `Fraction(None)` raises `TypeError`
instead of producing a RAISE action with exact amount 20. -/
theorem integer_raise_crashes :
    (matchTop actionRe raiseLine).isSome = true ∧
    grpGet ((matchTop actionRe raiseLine).getD []) 3 = none ∧
    parse ⟨none, raiseStream⟩ = .error .typeError := by
  refine ⟨by decide, by decide, by decide⟩

/-- C6 counterexample: an ante line — which matches the module's own
(unused) `_ante_re` — is not consumed by the blinds section: encountered
first it raises a hard parse error carrying the line, and nothing is
appended to `blinds`. -/
theorem ante_line_not_consumed_cx :
    (matchTop anteRe anteLine).isSome = true ∧
    matchTop blindRe anteLine = none ∧
    _parse_blinds c6hh ⟨some anteLine, []⟩ =
      .error (.parseException anteLine) := by
  refine ⟨by decide, by decide, by decide⟩

/-- C6 (amended): the blinds section consumes only lines matching
`name: posts small/big/small & big blind(s) amount`.  The first line is
mandatory: a non-matching current line — an ante line included — raises a
hard parse error carrying that raw line, and nothing is appended.  Every
appended action is a BLIND action whose seat index is the seat lookup of
the name captured by its line and whose amount is exactly the `Fraction`
of the amount text captured by its line.  After the loop, `sits out`
notices are skipped, so the section's final line holds none.  An ante
line occurring after a blind line terminates the section, is left as the
current line, is not appended, and stops later blind lines from being
consumed (shown on the concrete `c6state2`). -/
theorem blinds_section_amended :
    (∀ (hh : HandHistory) (s : PState), matchTop blindRe (curStr s) = none →
      _parse_blinds hh s = .error (.parseException (curStr s))) ∧
    (∀ (hh : HandHistory) (s : PState) (r : HandHistory × PState),
      _parse_blinds hh s = .ok r →
      (∀ pa ∈ r.1.blinds, ∃ line caps q st,
        matchTop blindRe line = some caps ∧
        fractionE (grpGet caps 3) = .ok q ∧
        seatE hh ((grpGet caps 1).getD "") = .ok (pa.seat, st) ∧
        pa.action = .blind ∧ pa.amount = some q) ∧
      containsSub (curStr r.2) "sits out" = false) ∧
    (_parse_blinds c6hh c6state2).isOk = true ∧
    c6res2.1.blinds = [⟨0, .blind, some (mkRat 1 1)⟩] ∧
    c6res2.2 = ⟨some anteLine, ["A: posts big blind $2"]⟩ := by
  refine ⟨?_, ?_, by decide, by decide, by decide⟩
  · intro hh s hm
    unfold _parse_blinds
    rw [hm]
  · intro hh s r h
    unfold _parse_blinds at h
    split at h
    · cases h
    · rename_i caps0 hcaps0
      simp only [bind, Except.bind] at h
      split at h
      · cases h
      · rename_i v hl
        split at h
        · cases h
        · rename_i s3 hk
          cases h
          constructor
          · refine loopW_inv _ _
              (fun acts => ∀ pa ∈ acts, ∃ line caps q st,
                matchTop blindRe line = some caps ∧
                fractionE (grpGet caps 3) = .ok q ∧
                seatE hh ((grpGet caps 1).getD "") = .ok (pa.seat, st) ∧
                pa.action = .blind ∧ pa.amount = some q) ?_ _ _ _ _ _ hl
              (by intro pa hpa; cases hpa)
            intro acc a c acc' htest hb hq
            unfold blindBody at hb
            simp only [bind, Except.bind] at hb
            split at hb
            · cases hb
            · rename_i q hq'
              split at hb
              · cases hb
              · rename_i is his
                cases hb
                intro pa hpa
                rcases List.mem_append.mp hpa with hm | hm
                · exact hq pa hm
                · rcases List.mem_singleton.mp hm with rfl
                  exact ⟨c, a, q, is.2, htest, hq', his, rfl, rfl⟩
          · have := skipWhile_exit _ _ _ hk
            simpa using this

/-- C6 witness: the mandatory-entry branch at an ante-first state, and the
per-line correspondence and exit condition at the concrete small-blind
section of `c6state`. -/
theorem blinds_section_amended_witness :
    _parse_blinds c6hh ⟨some anteLine, []⟩ =
      .error (.parseException anteLine) ∧
    (∃ line caps q st,
      matchTop blindRe line = some caps ∧
      fractionE (grpGet caps 3) = .ok q ∧
      seatE c6hh ((grpGet caps 1).getD "") =
        .ok ((c6res.1.blinds.headD ⟨0, .fold, none⟩).seat, st) ∧
      (c6res.1.blinds.headD ⟨0, .fold, none⟩).action = .blind ∧
      (c6res.1.blinds.headD ⟨0, .fold, none⟩).amount = some q) ∧
    containsSub (curStr c6res.2) "sits out" = false :=
  ⟨blinds_section_amended.1 c6hh ⟨some anteLine, []⟩ (by decide),
    (blinds_section_amended.2.1 c6hh c6state c6res (by decide)).1
      (c6res.1.blinds.headD ⟨0, .fold, none⟩) (by decide),
    (blinds_section_amended.2.1 c6hh c6state c6res (by decide)).2⟩

/-- C7 counterexample: a stream with a turn marker but no flop completes
`parse` with a board of length 1 — outside `{0, 3, 4, 5}`. -/
theorem board_length_one_cx :
    (match parse ⟨none, turnOnlyStream⟩ with
      | .ok r => r.1.board.length
      | .error _ => 99) = 1 := by
  decide

/-- C7 witness: the amended board-length decomposition at the concrete
hand of `exStream` (flop matched, no turn, no river: board of length 3). -/
theorem board_length_amended_witness :
    ∃ ps r1 r2 r3 r4 r5 r6 r7,
      _parse_header (seek_next_header (⟨none, exStream⟩ : PState)) = .ok ps ∧
      _parse_players (mkHandHistory ps.1) ps.2 = .ok r1 ∧
      _parse_blinds r1.1 r1.2 = .ok r2 ∧
      _parse_hero r2.1 r2.2 = .ok r3 ∧
      _parse_preflop r3.1 r3.2 = .ok r4 ∧
      _parse_flop r4.1 r4.2 = .ok r5 ∧
      _parse_turn r5.1 r5.2 = .ok r6 ∧
      _parse_river r6.1 r6.2 = .ok r7 ∧
      _parse_showdown r7.1 r7.2 = .ok (exHH, exS) ∧
      exHH.board.length =
        (if (matchTop flopRe (curStr r4.2)).isSome then 3 else 0) +
        (if (matchTop turnRe (curStr r5.2)).isSome then 1 else 0) +
        (if (matchTop riverRe (curStr r6.2)).isSome then 1 else 0) ∧
      (((matchTop turnRe (curStr r5.2)).isSome = true →
          (matchTop flopRe (curStr r4.2)).isSome = true) →
        ((matchTop riverRe (curStr r6.2)).isSome = true →
          (matchTop turnRe (curStr r5.2)).isSome = true) →
        (exHH.board.length = 0 ∨ exHH.board.length = 3 ∨
          exHH.board.length = 4 ∨ exHH.board.length = 5)) ∧
      ((exHH.board.length = 1 ∨ exHH.board.length = 2) →
        (matchTop flopRe (curStr r4.2)).isSome = false ∧
        ((matchTop turnRe (curStr r5.2)).isSome = true ∨
          (matchTop riverRe (curStr r6.2)).isSome = true)) :=
  board_length_amended ⟨none, exStream⟩ exHH exS (by decide)

/-- C8 witness: the amount/kind equivalence at the first action of the
concrete hand of `exStream`. -/
theorem action_amount_iff_kind_witness :
    amountOk ((allActions exHH).headD ⟨0, .fold, none⟩) :=
  action_amount_iff_kind ⟨none, exStream⟩ exHH exS (by decide)
    ((allActions exHH).headD ⟨0, .fold, none⟩) (by decide)

/-- C9: two full passes of `histories` over the same stream contents are
identical field for field: a clean full pass always leaves the sentinel
current line, and the generator rewinds the stream itself, so the second
pass starts from the identical parser state and yields the identical
record sequence. -/
theorem histories_two_passes_equal (contents : List String)
    (h : (histories contents none).2.1 = none) :
    (histories contents ((histories contents none).2.2.cur)).1 =
      (histories contents none).1 := by
  have hz : (histories contents none).2.2.cur = none := by
    unfold histories at h ⊢
    exact historiesLoop_final_cur _ _ h
  rw [hz]

/-- C9 witness: the two-pass equality over a concrete headerless
stream. -/
theorem histories_two_passes_equal_witness :
    (histories ["hello"]
        ((histories ["hello"] none).2.2.cur)).1 =
      (histories ["hello"] none).1 :=
  histories_two_passes_equal ["hello"] (by decide)

/-- C10: constructing the parser with any mode other than `full` raises
`Exception("Not implemented.")` as the very first statement of
`__init__`, before the stream is assigned or any file is opened — no
`InitAction` is ever produced. -/
theorem init_mode_guard (hasStream : Bool) (filename : Option String)
    (mode : String) (h : mode ≠ "full") :
    initParser hasStream filename mode = .error .notImplemented := by
  unfold initParser
  simp [h]

/-- C10 witness: the documented mode `header` (and by the same theorem
`text`) is rejected up front. -/
theorem init_mode_guard_witness :
    initParser true (some "f.txt") "header" = .error .notImplemented :=
  init_mode_guard true (some "f.txt") "header" (by decide)

end Poker
